import Mathlib

/-!
Verification development for the RaincloudDB storage engine core.

This file gives a shallow embedding, in Lean 4, of the storage-engine
components of the repository (B+ tree, index/data/header pages, free list,
buffer pool, LRU replacement strategy) and proves or refutes the frozen
specification claims about them.  Every definition is translated from the
Rust sources under `src/`; machine integers are modelled as `Nat`/`Int`
with explicit wrap-around where the code can overflow, fallible paths
return `Option` or a dedicated result type, and Rust panics are modelled
as a distinguished outcome where a claim depends on them.
-/

namespace Raincloud

/-- `types.rs`: `PAGE_SIZE = 4096`. -/
def PAGE_SIZE : Nat := 4096

/-- `types.rs`: `MAX_SLOTS = 255`. -/
def MAX_SLOTS : Nat := 255

/-- `index_page.rs`: `RecordId { page_id: PageId, slot_id: SlotId }`.
`PageId` is `u32` and `SlotId` is `u8`; we model both as `Nat`. -/
structure RecordId where
  page_id : Nat
  slot_id : Nat
deriving DecidableEq, Repr

/-- `index_page.rs`: `enum IndexType { Leaf = 0, Internal = 1 }`. -/
inductive IndexType where
  | Leaf
  | Internal
deriving DecidableEq, Repr

/-- `index_page.rs`: the `IndexPage` struct.  `keys` are `i64` (modelled as
`Int`), `rids` is used only by leaves, `children` only by internal nodes,
`next` only by leaves. -/
structure IndexPage where
  id : Nat
  page_type : IndexType
  keys : List Int
  rids : List RecordId
  children : List Nat
  next : Option Nat
deriving DecidableEq, Repr

namespace IndexPage

/-- `IndexPage::new(id, page_type)`: empty page of the given type. -/
def new (id : Nat) (page_type : IndexType) : IndexPage :=
  { id := id, page_type := page_type, keys := [], rids := [],
    children := [], next := none }

/-- `IndexPage::search_child`: first index `i` with `key < keys[i]` selects
`children.get(i)`; otherwise the rightmost child (`children.last()`). -/
def search_child (p : IndexPage) (key : Int) : Option Nat :=
  match p.keys.findIdx? (fun k => key < k) with
  | some i => p.children.get? i
  | none => p.children.getLast?

/-- `IndexPage::search_rid`: position of the first key equal to `key`,
mapped through `rids`. -/
def search_rid (p : IndexPage) (key : Int) : Option RecordId :=
  match p.keys.findIdx? (fun k => k = key) with
  | some i => p.rids.get? i
  | none => none

/-- Insertion position used by `Vec::binary_search` on the sorted key list:
the first index whose key is `≥ key` (equal to `keys.length` when every key
is smaller).  On a sorted, duplicate-free list this is exactly the index
`binary_search` reports. -/
def lowerBound (keys : List Int) (key : Int) : Nat :=
  keys.findIdx (fun k => key ≤ k)

/-- `IndexPage::insert_record` (leaf): overwrite the rid when the key is
present (`Ok(index)` branch), otherwise insert key and rid at the sorted
position (`Err(index)` branch). -/
def insert_record (p : IndexPage) (key : Int) (rid : RecordId) : IndexPage :=
  let i := lowerBound p.keys key
  if p.keys.get? i = some key then
    { p with rids := p.rids.set i rid }
  else
    { p with keys := p.keys.insertIdx i key, rids := p.rids.insertIdx i rid }

/-- `IndexPage::insert_child` (internal): insert `key` at the binary-search
position and `child` one position to its right. -/
def insert_child (p : IndexPage) (key : Int) (child : Nat) : IndexPage :=
  let i := lowerBound p.keys key
  { p with keys := p.keys.insertIdx i key,
           children := p.children.insertIdx (i + 1) child }

/-- `IndexPage::remove_key`: remove the key (and the aligned rid or child)
when present; report whether a removal happened. -/
def remove_key (p : IndexPage) (key : Int) : Bool × IndexPage :=
  let i := lowerBound p.keys key
  if p.keys.get? i = some key then
    match p.page_type with
    | IndexType.Internal =>
        (true, { p with keys := p.keys.eraseIdx i, children := p.children.eraseIdx i })
    | IndexType.Leaf =>
        (true, { p with keys := p.keys.eraseIdx i, rids := p.rids.eraseIdx i })
  else
    (false, p)

/-- `IndexPage::split`: `mid = keys.len() / 2`.  The internal branch keeps
`keys[0..=mid]` and `children[0..=mid]` in place (`split_off(mid + 1)`) and
moves the rest to the new sibling; the leaf branch keeps `keys[0..mid]`
(`split_off(mid)`), moves the rest, and rethreads the `next` chain.
Returns (promoted key, updated self, new sibling). -/
def split (p : IndexPage) (new_id : Nat) : Int × IndexPage × IndexPage :=
  let mid := p.keys.length / 2
  match p.page_type with
  | IndexType.Internal =>
      let promoted := p.keys.getD mid 0
      let self1 := { p with keys := p.keys.take (mid + 1),
                            children := p.children.take (mid + 1) }
      let sibling := { new new_id IndexType.Internal with
                         keys := p.keys.drop (mid + 1),
                         children := p.children.drop (mid + 1) }
      (promoted, self1, sibling)
  | IndexType.Leaf =>
      let promoted := p.keys.getD mid 0
      let self1 := { p with keys := p.keys.take mid,
                            rids := p.rids.take mid,
                            next := some new_id }
      let sibling := { new new_id IndexType.Leaf with
                         keys := p.keys.drop mid,
                         rids := p.rids.drop mid,
                         next := p.next }
      (promoted, self1, sibling)

/-- `IndexPage::merge`: append the sibling's contents onto `self`; a leaf
additionally takes over the sibling's `next` pointer (`sibling.next.take()`).
Returns (merged self, drained sibling). -/
def merge (p sibling : IndexPage) : IndexPage × IndexPage :=
  match p.page_type with
  | IndexType.Internal =>
      ({ p with keys := p.keys ++ sibling.keys,
                children := p.children ++ sibling.children }, sibling)
  | IndexType.Leaf =>
      ({ p with keys := p.keys ++ sibling.keys,
                rids := p.rids ++ sibling.rids,
                next := sibling.next },
       { sibling with next := none })

/-- `IndexPage::redistribute`: borrow one entry from the sibling when it has
more than `min_keys` keys; returns the separator the parent should adopt
(which the source computes *after* mutating, so it can be `none` even though
the pages moved) together with the updated pages `(self, sibling)`. -/
def redistribute (p sibling : IndexPage) (borrow_from_left : Bool)
    (min_keys : Nat) : Option Int × IndexPage × IndexPage :=
  if sibling.keys.length ≤ min_keys then
    (none, p, sibling)
  else
    match p.page_type with
    | IndexType.Internal =>
        if borrow_from_left then
          let key := sibling.keys.getLastD 0
          let child := sibling.children.getLastD 0
          let sibling1 := { sibling with keys := sibling.keys.dropLast,
                                         children := sibling.children.dropLast }
          let p1 := { p with keys := key :: p.keys, children := child :: p.children }
          (sibling1.keys.getLast?, p1, sibling1)
        else
          let key := sibling.keys.headD 0
          let child := sibling.children.headD 0
          let sibling1 := { sibling with keys := sibling.keys.tail,
                                         children := sibling.children.tail }
          let p1 := { p with keys := p.keys ++ [key], children := p.children ++ [child] }
          (sibling1.keys.head?, p1, sibling1)
    | IndexType.Leaf =>
        if borrow_from_left then
          let key := sibling.keys.getLastD 0
          let rid := sibling.rids.getLastD ⟨0, 0⟩
          let sibling1 := { sibling with keys := sibling.keys.dropLast,
                                         rids := sibling.rids.dropLast }
          let p1 := { p with keys := key :: p.keys, rids := rid :: p.rids }
          (p1.keys.head?, p1, sibling1)
        else
          let key := sibling.keys.headD 0
          let rid := sibling.rids.headD ⟨0, 0⟩
          let sibling1 := { sibling with keys := sibling.keys.tail,
                                         rids := sibling.rids.tail }
          let p1 := { p with keys := p.keys ++ [key], rids := p.rids ++ [rid] }
          (sibling1.keys.head?, p1, sibling1)

end IndexPage

/-! ## B+ tree (`bplus_tree.rs`)

The tree operates on pages through the buffer pool, which for the tree's
sequential semantics is a mutable map from page ids to `IndexPage`s; page
creation draws ids from the disk-manager counter (`create_page`, see
`bufferpool.rs`), which hands out `0, 1, 2, …` on a fresh database.  We model
that map as a total function `Nat → IndexPage` plus the allocation counter.
The `loop`s of `search` and `descend_to_leaf` are modelled with explicit
fuel; in the code they terminate because the page graph reachable from the
root is a tree, and every theorem below supplies enough fuel for that. -/

structure BTState where
  root : Nat
  store : Nat → IndexPage
  nextId : Nat
  internal_max_keys : Nat
  leaf_max_keys : Nat

namespace BTState

/-- `internal_min_keys = internal_max_keys / 2` (`BPlusTree::new`). -/
def internal_min_keys (t : BTState) : Nat := t.internal_max_keys / 2

/-- `leaf_min_keys = leaf_max_keys / 2` (`BPlusTree::new`). -/
def leaf_min_keys (t : BTState) : Nat := t.leaf_max_keys / 2

/-- Write one page back through its guard. -/
def setPage (t : BTState) (id : Nat) (p : IndexPage) : BTState :=
  { t with store := fun j => if j = id then p else t.store j }

/-- `BufferPool::create_page` as seen by the tree: the new page id comes from
the disk-manager counter and the fresh page is an empty leaf
(`Page::new` for `IndexPage` defaults to `IndexType::Leaf`). -/
def createPage (t : BTState) : Nat × BTState :=
  (t.nextId, setPage { t with nextId := t.nextId + 1 } t.nextId
    (IndexPage.new t.nextId IndexType.Leaf))

/-- The fresh tree used by the repository: a root leaf created by the first
`create_page` (id 0 on an empty database file). -/
def newTree (internal_max leaf_max : Nat) : BTState :=
  { root := 0, store := fun _ => IndexPage.new 0 IndexType.Leaf,
    nextId := 1, internal_max_keys := internal_max, leaf_max_keys := leaf_max }

/-- `BPlusTree::search`: descend from the root following `search_child`
until a leaf answers with `search_rid`.  `fuel` bounds the loop. -/
def searchAux (t : BTState) (key : Int) : Nat → Nat → Option RecordId
  | 0, _ => none
  | fuel + 1, curr_id =>
      let p := t.store curr_id
      match p.page_type with
      | IndexType.Internal =>
          match p.search_child key with
          | some child => searchAux t key fuel child
          | none => none
      | IndexType.Leaf => p.search_rid key

/-- `BPlusTree::search` with the canonical fuel `nextId + 1` (at least the
number of pages ever allocated, which bounds the tree height). -/
def search (t : BTState) (key : Int) : Option RecordId :=
  searchAux t key (t.nextId + 1) t.root

/-- `BPlusTree::descend_to_leaf`: record the path of page ids from the root
down to the leaf that covers `key`.  Returns `none` when fuel runs out or an
internal node has no child (`expect` panics in the source). -/
def descendAux (t : BTState) (key : Int) : Nat → Nat → List Nat → Option (List Nat)
  | 0, _, _ => none
  | fuel + 1, curr_id, acc =>
      let p := t.store curr_id
      match p.page_type with
      | IndexType.Internal =>
          match p.search_child key with
          | some child => descendAux t key fuel child (acc ++ [curr_id])
          | none => none
      | IndexType.Leaf => some (acc ++ [curr_id])

/-- `descend_to_leaf` with the canonical fuel. -/
def descend_to_leaf (t : BTState) (key : Int) : Option (List Nat) :=
  descendAux t key (t.nextId + 1) t.root []

/-- Step 2 of `BPlusTree::insert`: propagate a pending promotion up the
recorded path (`stackRev` is the stack with the deepest parent first).
Each parent inserts the promoted pair, splits when it exceeds
`internal_max_keys`, and a promotion that outlives the stack allocates a
new internal root with the old root as its first child. -/
def propagate (t : BTState) : List Nat → Option (Int × Nat) → BTState
  | _, none => t
  | parent_id :: rest, some (promoted_key, promoted_child) =>
      let pp := (t.store parent_id).insert_child promoted_key promoted_child
      if pp.keys.length > t.internal_max_keys then
        let (sib_id, t1) := t.createPage
        let (promoted2, left, sib) := pp.split sib_id
        let sib := { sib with page_type := IndexType.Internal }
        let t2 := (t1.setPage parent_id left).setPage sib_id sib
        propagate t2 rest (some (promoted2, sib_id))
      else
        propagate (t.setPage parent_id pp) rest none
  | [], some (promoted_key, promoted_child) =>
      let (root_id, t1) := t.createPage
      let rp := { t1.store root_id with page_type := IndexType.Internal }
      let rp := { rp with children := rp.children ++ [t1.root] }
      let rp := rp.insert_child promoted_key promoted_child
      { t1.setPage root_id rp with root := root_id }

/-- `BPlusTree::insert`.  Early-inserts into an empty root leaf; otherwise
descends to the target leaf, inserts there, splits on overflow and
propagates the promotion along the recorded path.  Returns `none` when
`descend_to_leaf` fails (a source-level panic). -/
def insert (t : BTState) (key : Int) (rid : RecordId) : Option BTState :=
  let rp := t.store t.root
  if rp.page_type = IndexType.Leaf ∧ rp.keys = [] then
    some (t.setPage t.root (rp.insert_record key rid))
  else
    match t.descend_to_leaf key with
    | none => none
    | some stack =>
        match stack.getLast? with
        | none => none
        | some leaf_id =>
            let rest := stack.dropLast.reverse
            let lp := (t.store leaf_id).insert_record key rid
            if lp.keys.length > t.leaf_max_keys then
              let (sib_id, t1) := t.createPage
              let (promoted, left, sib) := lp.split sib_id
              let t2 := (t1.setPage leaf_id left).setPage sib_id sib
              some (propagate t2 rest (some (promoted, sib_id)))
            else
              some (propagate (t.setPage leaf_id lp) rest none)

/-- Outcome of one level of the underflow-repair loop in
`BPlusTree::delete`. -/
inductive RepairOutcome where
  /-- A redistribution succeeded: the source does `return true`. -/
  | done (t : BTState)
  /-- The loop `break`s or finishes: fall through to the root-collapse step. -/
  | fallthrough (t : BTState)
  /-- `panic!("Unable to fix underflow …")`. -/
  | panik

/-- Steps 2–3 of `BPlusTree::delete`: walk the recorded path upward
(deepest parent first), repairing underflow by redistribution or merge. -/
def rebalance (t : BTState) : List Nat → Nat → Bool → RepairOutcome
  | [], _, _ => RepairOutcome.fallthrough t
  | parent_id :: rest, child_id, is_leaf =>
      let pp := t.store parent_id
      match pp.children.findIdx? (fun cid => cid = child_id) with
      | none => RepairOutcome.panik
      | some index =>
          let cp := t.store child_id
          let min_keys := if is_leaf then t.leaf_min_keys else t.internal_min_keys
          let max_keys := if is_leaf then t.leaf_max_keys else t.internal_max_keys
          -- Step 2: redistribution (left sibling when one exists, else right)
          let redis :
              Option (BTState) × BTState :=
            if 0 < index then
              let left_id := pp.children.getD (index - 1) 0
              let (sep?, cp1, lp1) :=
                cp.redistribute (t.store left_id) true min_keys
              let t1 := (t.setPage child_id cp1).setPage left_id lp1
              match sep? with
              | some sep =>
                  let pp1 := { pp with keys := pp.keys.set (index - 1) sep }
                  (some (t1.setPage parent_id pp1), t1)
              | none => (none, t1)
            else if index < pp.children.length - 1 then
              let right_id := pp.children.getD (index + 1) 0
              let (sep?, cp1, rp1) :=
                cp.redistribute (t.store right_id) false min_keys
              let t1 := (t.setPage child_id cp1).setPage right_id rp1
              match sep? with
              | some sep =>
                  let pp1 := { pp with keys := pp.keys.set index sep }
                  (some (t1.setPage parent_id pp1), t1)
              | none => (none, t1)
            else (none, t)
          match redis with
          | (some tDone, _) => RepairOutcome.done tDone
          | (none, t1) =>
              -- Step 3: merge (left sibling when one exists, else right)
              let cp := t1.store child_id
              let pp := t1.store parent_id
              let merged : Option (BTState × IndexPage) :=
                if 0 < index then
                  let left_id := pp.children.getD (index - 1) 0
                  let lp := t1.store left_id
                  if lp.keys.length + cp.keys.length +
                      (if is_leaf then 0 else 1) > max_keys then none
                  else
                    -- for internals the popped separator is bound and dropped
                    let pp1 := { pp with keys := pp.keys.eraseIdx (index - 1) }
                    let (lp1, cp1) := lp.merge cp
                    let pp2 := { pp1 with children := pp1.children.eraseIdx index }
                    some (((t1.setPage left_id lp1).setPage child_id cp1).setPage
                            parent_id pp2, pp2)
                else if index < pp.children.length - 1 then
                  let right_id := pp.children.getD (index + 1) 0
                  let rp := t1.store right_id
                  if rp.keys.length + cp.keys.length +
                      (if is_leaf then 0 else 1) > max_keys then none
                  else
                    let separator := pp.keys.getD index 0
                    let pp1 := { pp with keys := pp.keys.eraseIdx index }
                    let cp1 :=
                      if is_leaf then cp
                      else { cp with keys := cp.keys ++ [separator] }
                    let (cp2, rp1) := cp1.merge rp
                    let pp2 := { pp1 with children := pp1.children.eraseIdx (index + 1) }
                    some (((t1.setPage child_id cp2).setPage right_id rp1).setPage
                            parent_id pp2, pp2)
                else some (t1, pp)
              match merged with
              | none => RepairOutcome.panik
              | some (t2, pp2) =>
                  let parent_min :=
                    match pp2.page_type with
                    | IndexType.Leaf => t.leaf_min_keys
                    | IndexType.Internal => t.internal_min_keys
                  if pp2.keys.length ≥ parent_min then
                    RepairOutcome.fallthrough t2
                  else
                    rebalance t2 rest parent_id false

/-- Final step of `BPlusTree::delete`: collapse an internal root that has
run out of keys onto its single remaining child. -/
def rootCollapse (t : BTState) : BTState :=
  let rp := t.store t.root
  match rp.page_type with
  | IndexType.Internal =>
      if rp.keys = [] then { t with root := rp.children.getD 0 0 } else t
  | IndexType.Leaf => t

/-- `BPlusTree::delete`.  Returns `none` for a source-level panic, otherwise
the success flag and the new state. -/
def delete (t : BTState) (key : Int) : Option (Bool × BTState) :=
  let rp := t.store t.root
  if rp.page_type = IndexType.Leaf ∧ rp.keys = [] then
    some (false, t)
  else
    match t.descend_to_leaf key with
    | none => none
    | some stack =>
        match stack.getLast? with
        | none => none
        | some leaf_id =>
            let (removed, lp) := (t.store leaf_id).remove_key key
            if ¬removed then
              some (false, t)
            else
              let t1 := t.setPage leaf_id lp
              if lp.keys.length ≥ t.leaf_min_keys then
                some (true, t1)
              else
                match rebalance t1 stack.dropLast.reverse leaf_id true with
                | RepairOutcome.done t2 => some (true, t2)
                | RepairOutcome.fallthrough t2 => some (true, rootCollapse t2)
                | RepairOutcome.panik => none

end BTState

/-! ## Concrete scenarios for claims C2 and C3 -/

/-- A leaf page with the given keys, each key `k` paired with the rid
`⟨k.toNat, 0⟩`. -/
def leafPage (id : Nat) (ks : List Int) (nx : Option Nat) : IndexPage :=
  { id := id, page_type := IndexType.Leaf, keys := ks,
    rids := ks.map (fun k => ⟨k.toNat, 0⟩), children := [], next := nx }

/-- An internal page with the given keys and children. -/
def internalPage (id : Nat) (ks : List Int) (cs : List Nat) : IndexPage :=
  { id := id, page_type := IndexType.Internal, keys := ks, rids := [],
    children := cs, next := none }

/-- The exact shape `IndexPage::split` receives when an internal node with
`internal_max_keys = 3` overflows to 4 keys during insert promotion:
keys `[10, 20, 30, 40]`, children `[2, 3, 4, 5, 6]`. -/
def c2node : IndexPage := internalPage 1 [10, 20, 30, 40] [2, 3, 4, 5, 6]

/-- Claim C2 evaluation: splitting the overflowed internal node
`keys = [10,20,30,40]`, `children = [2,3,4,5,6]` promotes `30` but *keeps*
`30` as the last key of the left node, whose child count then equals its
key count (three keys, three children) rather than exceeding it by one.
The spec demands a left node `[10,20]` with children `[2,3,4]` and the
promoted key `30` absent from both halves. -/
theorem c2_internal_split_keeps_midpoint :
    (c2node.split 7).1 = 30 ∧
    (c2node.split 7).2.1.keys = [10, 20, 30] ∧
    (c2node.split 7).2.1.children = [2, 3, 4] ∧
    (c2node.split 7).2.2.keys = [40] ∧
    (c2node.split 7).2.2.children = [5, 6] := by
  decide

/-- A well-formed two-level-below-root B+ tree (`internal_max_keys = 2`,
`leaf_max_keys = 2`): root `1 = [20]⟨2,3⟩`, internals `2 = [10]⟨4,5⟩` and
`3 = [30]⟨6,7⟩`, leaves `4 = [5]`, `5 = [10,15]`, `6 = [20]`, `7 = [30]`. -/
def c3tree : BTState :=
  { root := 1,
    store := fun j =>
      if j = 1 then internalPage 1 [20] [2, 3]
      else if j = 2 then internalPage 2 [10] [4, 5]
      else if j = 3 then internalPage 3 [30] [6, 7]
      else if j = 4 then leafPage 4 [5] (some 5)
      else if j = 5 then leafPage 5 [10, 15] (some 6)
      else if j = 6 then leafPage 6 [20] (some 7)
      else if j = 7 then leafPage 7 [30] none
      else IndexPage.new 0 IndexType.Leaf,
    nextId := 8, internal_max_keys := 2, leaf_max_keys := 2 }

/-- Claim C3 evaluation: `delete 20` on `c3tree` empties leaf 6, merges it
into leaf 7, underflows internal node 3, and merges node 3 into its *left*
sibling 2.  The parent separator `20` is removed from the root but *not*
pulled down into the merged node: the merged node (which becomes the new
root after collapse) is `keys = [10]`, `children = [4,5,6]` — the spec
demands `keys = [10, 20]`.  Live keys 10 and 15 become unreachable while
key 5 and the moved key 30 survive, so the drop is observable. -/
theorem c3_left_merge_drops_separator :
    (c3tree.delete 20).map (fun r =>
      (r.1, r.2.root, (r.2.store 2).keys, (r.2.store 2).children,
       r.2.search 10, r.2.search 15, r.2.search 5, r.2.search 30)) =
    some (true, 2, [10], [4, 5, 6], none, none,
          some ⟨5, 0⟩, some ⟨30, 0⟩) := by
  rfl

/-! ## Replacement strategy (`replacement_strategy.rs`)

`LRUReplacementStrategy` wraps a `LinkedHashMap<PageId, ()>`: the keys in
insertion order, least-recently-used first.  We model it as the key list. -/

structure LRUReplacementStrategy where
  map : List Nat
deriving DecidableEq, Repr

namespace LRUReplacementStrategy

/-- `update`: `self.map.remove(&page_id); self.map.insert(page_id, ())` —
move (or insert) the id to the most-recently-used end. -/
def update (s : LRUReplacementStrategy) (page_id : Nat) : LRUReplacementStrategy :=
  { map := (s.map.erase page_id) ++ [page_id] }

/-- `get_evict`: iterate the keys in least-recently-used-first order. -/
def get_evict (s : LRUReplacementStrategy) : List Nat := s.map

end LRUReplacementStrategy

/-! ## Disk manager (`disk_manager.rs`), as the buffer pool sees it -/

structure DiskState (P : Type) where
  pages : List (Nat × P)
  next_page_id : Nat

namespace DiskState

/-- `FileDiskManager::read_page`. -/
def read_page (d : DiskState P) (id : Nat) : Option P :=
  (d.pages.find? (fun e => e.1 = id)).map (·.2)

/-- `FileDiskManager::write_page`. -/
def write_page (d : DiskState P) (id : Nat) (p : P) : DiskState P :=
  { d with pages := (id, p) :: d.pages.filter (fun e => ¬ e.1 = id) }

/-- `FileDiskManager::allocate_page_id`: return the counter, then
increment it.  On a fresh database file the counter starts at
`file_size / PAGE_SIZE = 0`. -/
def allocate_page_id (d : DiskState P) : Nat × DiskState P :=
  (d.next_page_id, { d with next_page_id := d.next_page_id + 1 })

end DiskState

/-! ## Buffer pool (`bufferpool.rs`), sequential semantics

A `BufferFrame` holds the page, the dirty flag and the pin count; the pool
holds the bounded page table, the disk manager and the replacement
strategy.  Guard acquisition (`PageGuard::new`) increments the pin count;
guard release decrements it.  The condition-variable wait in `evict_one` is
modelled by returning `none` ("no unpinned candidate; the caller blocks"),
and the fetch/create eviction loops carry fuel (each successful
`evict_one` shrinks the table, so `table.length + 1` rounds suffice). -/

structure BufferFrame (P : Type) where
  page : P
  is_dirty : Bool
  pin_count : Nat

structure BufferPool (P : Type) where
  page_table : List (Nat × BufferFrame P)
  capacity : Nat
  disk : DiskState P
  strategy : LRUReplacementStrategy

namespace BufferPool

/-- `page_table.get(&id)`. -/
def tableGet (pool : BufferPool P) (id : Nat) : Option (BufferFrame P) :=
  (pool.page_table.find? (fun e => e.1 = id)).map (·.2)

/-- `page_table.insert(id, frame)` (used only when `id` is absent). -/
def tableInsert (pool : BufferPool P) (id : Nat) (fr : BufferFrame P) :
    BufferPool P :=
  { pool with page_table := pool.page_table ++ [(id, fr)] }

/-- `page_table.remove(&id)`. -/
def tableRemove (pool : BufferPool P) (id : Nat) : BufferPool P :=
  { pool with page_table := pool.page_table.filter (fun e => ¬ e.1 = id) }

/-- Replace the frame stored under `id` (in-place mutation of the shared
frame through its `Arc`). -/
def tableSet (pool : BufferPool P) (id : Nat) (fr : BufferFrame P) :
    BufferPool P :=
  { pool with page_table :=
      pool.page_table.map (fun e => if e.1 = id then (id, fr) else e) }

/-- `PageGuard::new`: pin the frame. -/
def pin (pool : BufferPool P) (id : Nat) : BufferPool P :=
  match pool.tableGet id with
  | some fr => pool.tableSet id { fr with pin_count := fr.pin_count + 1 }
  | none => pool

/-- `PageGuard::drop`: unpin the frame; when the guard wrote, mark the
frame dirty. -/
def unpin (pool : BufferPool P) (id : Nat) (wrote : Bool) : BufferPool P :=
  match pool.tableGet id with
  | some fr =>
      pool.tableSet id { fr with pin_count := fr.pin_count - 1,
                                 is_dirty := fr.is_dirty || wrote }
  | none => pool

/-- The candidate loop of `BufferPool::evict_one`: for each id produced by
the strategy, skip ids absent from the page table (`continue`), skip
pinned frames, and evict the first remaining one — write it back when its
dirty bit was set (`swap(false)`), then remove it from the table.  An
exhausted candidate list means the source blocks on the eviction condvar. -/
def evictLoop (pool : BufferPool P) : List Nat → Option (Nat × BufferPool P)
  | [] => none
  | evicted_id :: rest =>
      match pool.tableGet evicted_id with
      | none => evictLoop pool rest
      | some fr =>
          if fr.pin_count ≠ 0 then
            evictLoop pool rest
          else
            let pool1 :=
              if fr.is_dirty then
                { pool.tableSet evicted_id { fr with is_dirty := false } with
                    disk := pool.disk.write_page evicted_id fr.page }
              else pool
            some (evicted_id, pool1.tableRemove evicted_id)

/-- `BufferPool::evict_one` (one pass; `none` = block on the condvar). -/
def evict_one (pool : BufferPool P) : Option (Nat × BufferPool P) :=
  evictLoop pool pool.strategy.get_evict

/-- The `while table.len() >= capacity { evict_one() }` loop of
`fetch_page`/`create_page`, with fuel. -/
def evictUntilBelow (pool : BufferPool P) : Nat → Option (BufferPool P)
  | 0 => none
  | fuel + 1 =>
      if pool.page_table.length ≥ pool.capacity then
        match pool.evict_one with
        | some (_, pool1) => evictUntilBelow pool1 fuel
        | none => none
      else
        some pool

/-- `BufferPool::create_page`: the page id comes from
`disk.allocate_page_id()` — the disk-manager counter — then a fresh dirty
frame is installed (or, if the id is somehow resident, that frame is
reused) and pinned.  Returns the id the guard refers to.  `pnew` is
`P::new`. -/
def create_page (pool : BufferPool P) (pnew : Nat → P) :
    Option (Nat × BufferPool P) :=
  let (page_id, disk1) := pool.disk.allocate_page_id
  let pool := { pool with disk := disk1 }
  match pool.evictUntilBelow (pool.page_table.length + 1) with
  | none => none
  | some pool =>
      match pool.tableGet page_id with
      | some _ =>
          let pool := { pool with strategy := pool.strategy.update page_id }
          some (page_id, pool.pin page_id)
      | none =>
          let fr : BufferFrame P :=
            { page := pnew page_id, is_dirty := true, pin_count := 0 }
          let pool := pool.tableInsert page_id fr
          let pool := { pool with strategy := pool.strategy.update page_id }
          some (page_id, pool.pin page_id)

/-- `BufferPool::fetch_page`.  `none` on the `InvalidPage` path or when
eviction blocks forever. -/
def fetch_page (pool : BufferPool P) (page_id : Nat) :
    Option (Nat × BufferPool P) :=
  match pool.tableGet page_id with
  | some _ =>
      let pool := { pool with strategy := pool.strategy.update page_id }
      some (page_id, pool.pin page_id)
  | none =>
      match pool.disk.read_page page_id with
      | none => none
      | some page =>
          match pool.evictUntilBelow (pool.page_table.length + 1) with
          | none => none
          | some pool =>
              match pool.tableGet page_id with
              | some _ =>
                  let pool := { pool with strategy := pool.strategy.update page_id }
                  some (page_id, pool.pin page_id)
              | none =>
                  let fr : BufferFrame P :=
                    { page := page, is_dirty := false, pin_count := 0 }
                  let pool := pool.tableInsert page_id fr
                  let pool := { pool with strategy := pool.strategy.update page_id }
                  some (page_id, pool.pin page_id)

/-- `BufferPool::flush_page`. -/
def flush_page (pool : BufferPool P) (page_id : Nat) :
    Option (BufferPool P) :=
  match pool.tableGet page_id with
  | none => none
  | some fr =>
      if fr.is_dirty then
        some { pool.tableSet page_id { fr with is_dirty := false } with
                 disk := pool.disk.write_page page_id fr.page }
      else
        some pool

end BufferPool

namespace BufferPool

theorem tableGet_tableRemove_self (pool : BufferPool P) (id : Nat) :
    (pool.tableRemove id).tableGet id = none := by
  have hfind : List.find? (fun e => decide (e.1 = id))
      (List.filter (fun e => decide ¬ e.1 = id) pool.page_table) = none := by
    rw [List.find?_eq_none]
    intro x hx
    have h2 := List.of_mem_filter hx
    simp only [decide_not, Bool.not_eq_true', decide_eq_false_iff_not] at h2
    simpa using h2
  simp [tableGet, tableRemove, hfind]

theorem evictLoop_spec (pool : BufferPool P) (l : List Nat) (pid : Nat)
    (pool' : BufferPool P) (h : evictLoop pool l = some (pid, pool')) :
    ∃ fr, pool.tableGet pid = some fr ∧ fr.pin_count = 0 ∧
      pool'.tableGet pid = none ∧ pool'.strategy = pool.strategy ∧
      pool'.disk.next_page_id = pool.disk.next_page_id := by
  induction l with
  | nil => simp [evictLoop] at h
  | cons c rest ih =>
      rw [evictLoop] at h
      cases hg : pool.tableGet c with
      | none => rw [hg] at h; exact ih h
      | some fr =>
          rw [hg] at h
          dsimp only at h
          by_cases hpin : fr.pin_count ≠ 0
          · rw [if_pos hpin] at h; exact ih h
          · rw [if_neg hpin] at h
            push_neg at hpin
            simp only [Option.some.injEq, Prod.mk.injEq] at h
            obtain ⟨h1, h2⟩ := h
            subst h1
            refine ⟨fr, hg, hpin, ?_, ?_, ?_⟩
            · rw [← h2]; exact tableGet_tableRemove_self ..
            · rw [← h2]
              by_cases hd : fr.is_dirty <;> simp [tableRemove, tableSet, hd]
            · rw [← h2]
              by_cases hd : fr.is_dirty <;>
                simp [tableRemove, tableSet, DiskState.write_page, hd]

theorem evictUntilBelow_next_page_id (fuel : Nat) (pool pool' : BufferPool P)
    (h : pool.evictUntilBelow fuel = some pool') :
    pool'.disk.next_page_id = pool.disk.next_page_id := by
  induction fuel generalizing pool with
  | zero => simp [evictUntilBelow] at h
  | succ n ih =>
      rw [evictUntilBelow] at h
      by_cases hf : pool.page_table.length ≥ pool.capacity
      · rw [if_pos hf] at h
        cases he : pool.evict_one with
        | none => rw [he] at h; simp at h
        | some r =>
            rw [he] at h
            have := evictLoop_spec pool _ r.1 r.2 he
            rw [ih r.2 h]
            exact this.choose_spec.2.2.2.2
      · rw [if_neg hf] at h
        simp only [Option.some.injEq] at h
        rw [← h]

theorem pin_disk (pool : BufferPool P) (id : Nat) :
    (pool.pin id).disk = pool.disk := by
  rw [pin]; cases h : pool.tableGet id <;> simp [tableSet]

/-- Claim C9 (pin safety).  For *every* buffer-pool state — in particular
every state reachable through `fetch_page`, `create_page`, `flush_page`,
guard acquisition (`pin`) and release (`unpin`) — a successful `evict_one`
removed a frame that it observed with `pin_count = 0`: the evicted id was
resident, its frame's pin count was zero, and it is gone from the page
table afterwards (pinned candidates are skipped by the loop). -/
theorem c9_evict_only_unpinned {P : Type} (pool : BufferPool P) (pid : Nat)
    (pool' : BufferPool P) (h : pool.evict_one = some (pid, pool')) :
    ∃ fr, pool.tableGet pid = some fr ∧ fr.pin_count = 0 ∧
      pool'.tableGet pid = none := by
  obtain ⟨fr, h1, h2, h3, -, -⟩ := evictLoop_spec pool _ pid pool' h
  exact ⟨fr, h1, h2, h3⟩

/-- A one-frame pool holding the unpinned, clean page 1 (frames carry `Nat`
pages here; the pool is polymorphic in the page type). -/
def c9pool : BufferPool Nat :=
  { page_table := [(1, { page := 7, is_dirty := false, pin_count := 0 })],
    capacity := 1, disk := { pages := [], next_page_id := 2 },
    strategy := { map := [1] } }

/-- Witness for C9: on `c9pool`, `evict_one` evicts page 1, and the theorem
instantiates with the frame that was observed unpinned. -/
theorem c9_evict_only_unpinned_witness :
    ∃ fr, c9pool.tableGet 1 = some fr ∧ fr.pin_count = 0 ∧
      (c9pool.tableRemove 1).tableGet 1 = none :=
  c9_evict_only_unpinned c9pool 1 (c9pool.tableRemove 1) rfl

/-- Claim C10.  (1) `update p` always leaves `p` in the LRU map and never
removes any other id, so once `update p` has run, `p` is in the map for
ever after; (2) `get_evict` yields exactly the map in
least-recently-used-first order; (3) `evict_one` never touches the
strategy, so an evicted (hence non-resident) id stays in the map; and
(4) the eviction loop silently skips a candidate that is absent from the
page table and continues the pass with the remaining candidates. -/
theorem c10_lru_never_forgets :
    (∀ (s : LRUReplacementStrategy) (p : Nat), p ∈ (s.update p).map) ∧
    (∀ (s : LRUReplacementStrategy) (p q : Nat),
        p ∈ s.map → p ∈ (s.update q).map) ∧
    (∀ s : LRUReplacementStrategy, s.get_evict = s.map) ∧
    (∀ (P : Type) (pool : BufferPool P) (pid : Nat) (pool' : BufferPool P),
        pool.evict_one = some (pid, pool') → pool'.strategy = pool.strategy) ∧
    (∀ (P : Type) (pool : BufferPool P) (c : Nat) (rest : List Nat),
        pool.tableGet c = none →
        pool.evictLoop (c :: rest) = pool.evictLoop rest) := by
  refine ⟨?_, ?_, ?_, ?_, ?_⟩
  · intro s p; simp [LRUReplacementStrategy.update]
  · intro s p q hp
    simp only [LRUReplacementStrategy.update, List.mem_append,
      List.mem_singleton]
    by_cases hpq : p = q
    · right; exact hpq
    · left; exact (List.mem_erase_of_ne hpq).mpr hp
  · intro s; rfl
  · intro P pool pid pool' h
    exact (evictLoop_spec pool _ pid pool' h).choose_spec.2.2.2.1
  · intro P pool c rest hc
    rw [evictLoop, hc]

/-- Witness for C10: concrete instances of the two hypothesised parts —
id 3 survives an `update 5`, and the eviction loop over `[9, 1]` on
`c9pool`-like state (page 9 not resident) equals the loop over `[1]`. -/
theorem c10_lru_never_forgets_witness :
    (3 ∈ (LRUReplacementStrategy.update { map := [3] } 5).map) ∧
    ((c9pool.tableRemove 1).evictLoop ([9, 1]) =
      (c9pool.tableRemove 1).evictLoop [1]) :=
  ⟨c10_lru_never_forgets.2.1 { map := [3] } 3 5 (by decide),
   c10_lru_never_forgets.2.2.2.2 Nat (c9pool.tableRemove 1) 9 [1] rfl⟩

/-- Claim C4 evaluation.  `create_page` takes the new page id from the
disk-manager counter (`disk.allocate_page_id()`) in every state — the
source `BufferPool` does not even hold a free list (its own callers in
`storage/mod.rs` and `tests/bufferpool_test.rs` pass one to a four-argument
constructor that does not exist) — and on a pool over a fresh (empty)
database file the very first id handed out is `0`, the nil sentinel, which
`FreeList::allocate` can never return (its ids start at 1). -/
theorem c4_create_page_uses_disk_counter :
    (∀ (P : Type) (pool : BufferPool P) (pnew : Nat → P) (pid : Nat)
        (pool' : BufferPool P),
        pool.create_page pnew = some (pid, pool') →
        pid = pool.disk.next_page_id ∧
        pool'.disk.next_page_id = pool.disk.next_page_id + 1) ∧
    ((BufferPool.create_page
        { page_table := [], capacity := 2,
          disk := { pages := [], next_page_id := 0 },
          strategy := { map := [] } } (fun n : Nat => n)).map Prod.fst =
      some 0) := by
  constructor
  · intro P pool pnew pid pool' h
    rw [create_page] at h
    dsimp only [DiskState.allocate_page_id] at h
    split at h
    · exact absurd h (by simp)
    next pool1 hev =>
      have hc := evictUntilBelow_next_page_id _ _ _ hev
      split at h <;>
      · simp only [Option.some.injEq, Prod.mk.injEq] at h
        obtain ⟨h1, h2⟩ := h
        subst h1
        refine ⟨rfl, ?_⟩
        rw [← h2, pin_disk]
        simpa using hc
  · rfl

/-- A pool over a fresh, empty database file (counter 0), capacity 2. -/
def c4pool : BufferPool Nat :=
  { page_table := [], capacity := 2,
    disk := { pages := [], next_page_id := 0 }, strategy := { map := [] } }

/-- The state `create_page` leaves behind on `c4pool`. -/
def c4poolAfter : BufferPool Nat :=
  ((c4pool.create_page (fun n => n)).map Prod.snd).getD c4pool

/-- Witness for C4: the universally quantified part applied to the fresh
pool: `create_page` returns id `0 = next_page_id` and bumps the counter. -/
theorem c4_create_page_uses_disk_counter_witness :
    (0 : Nat) = c4pool.disk.next_page_id ∧
    c4poolAfter.disk.next_page_id = c4pool.disk.next_page_id + 1 :=
  c4_create_page_uses_disk_counter.1 Nat c4pool (fun n => n) 0 c4poolAfter rfl

end BufferPool

/-! ## Little-endian byte encoding

All on-disk integers are little-endian (`to_le_bytes` / `from_le_bytes`).
A byte is a `Nat`; encoders emit values `< 256`. -/

/-- `n.to_le_bytes()` for a `k`-byte integer. -/
def toLeBytes : Nat → Nat → List Nat
  | 0, _ => []
  | k + 1, n => (n % 256) :: toLeBytes k (n / 256)

/-- `from_le_bytes`. -/
def fromLeBytes : List Nat → Nat
  | [] => 0
  | b :: rest => b % 256 + 256 * fromLeBytes rest

theorem toLeBytes_length (k n : Nat) : (toLeBytes k n).length = k := by
  induction k generalizing n with
  | zero => rfl
  | succ k ih => simp [toLeBytes, ih]

theorem fromLeBytes_toLeBytes (k n : Nat) :
    fromLeBytes (toLeBytes k n) = n % 256 ^ k := by
  induction k generalizing n with
  | zero => simp [toLeBytes, fromLeBytes, Nat.mod_one]
  | succ k ih =>
      rw [toLeBytes, fromLeBytes, ih]
      have e1 : n % (256 * 256 ^ k) / 256 = n / 256 % 256 ^ k :=
        Nat.mod_mul_right_div_self n 256 (256 ^ k)
      have e2 : n % (256 * 256 ^ k) % 256 = n % 256 :=
        Nat.mod_mod_of_dvd n ⟨256 ^ k, rfl⟩
      have hp : (256 : Nat) ^ (k + 1) = 256 * 256 ^ k := by
        rw [pow_succ, Nat.mul_comm]
      rw [hp]
      omega

/-- Two's-complement little-endian encoding of an `i64`. -/
def i64ToLeBytes (key : Int) : List Nat :=
  toLeBytes 8 (key % (2 ^ 64)).toNat

theorem i64ToLeBytes_length (key : Int) : (i64ToLeBytes key).length = 8 :=
  toLeBytes_length ..

/-- Decoding of an `i64` from 8 little-endian bytes. -/
def i64FromLeBytes (bytes : List Nat) : Int :=
  let n := fromLeBytes bytes
  if n < 2 ^ 63 then (n : Int) else (n : Int) - 2 ^ 64

theorem i64FromLeBytes_i64ToLeBytes (key : Int)
    (h1 : -(2 ^ 63) ≤ key) (h2 : key < 2 ^ 63) :
    i64FromLeBytes (i64ToLeBytes key) = key := by
  have hnn : 0 ≤ key % (2 ^ 64) := Int.emod_nonneg key (by norm_num)
  have hlt : key % (2 ^ 64) < 2 ^ 64 := Int.emod_lt_of_pos key (by norm_num)
  have hrep : key % (2 ^ 64) = key ∨ key % (2 ^ 64) = key + 2 ^ 64 := by
    rcases le_or_lt 0 key with hp | hn
    · left; exact Int.emod_eq_of_lt hp (by omega)
    · right
      have h0 : (key + 2 ^ 64) % (2 ^ 64) = key % (2 ^ 64) := by
        conv_lhs => rw [show key + 2 ^ 64 = key + 2 ^ 64 * 1 by ring]
        exact Int.add_mul_emod_self_left ..
      rw [← h0, Int.emod_eq_of_lt (by omega) (by omega)]
  rw [i64FromLeBytes, i64ToLeBytes, fromLeBytes_toLeBytes]
  have h256 : (256 : Nat) ^ 8 = 2 ^ 64 := by norm_num
  rw [h256]
  split <;> omega

/-! ## Bitmaps

The repository manipulates its bitmaps through `bitmap_get!`/`bitmap_set!`
macros whose definition is not under `src/` (only their uses are).
Modelled from the spec: bit `i` of the bitmap is bit `i % 8` of byte
`i / 8` (spec §3 describes `valid_slots` as a flat bitmap and the header
bitmap as covering `FREE_HEADER_SIZE × 8` page ids; `HeaderPage::get_slot`
scans exactly this layout when assembling little-endian `u64` words). -/

def bitmap_get (bytes : List Nat) (i : Nat) : Bool :=
  (bytes.getD (i / 8) 0).testBit (i % 8)

def bitmap_set (bytes : List Nat) (i : Nat) (b : Bool) : List Nat :=
  let old := bytes.getD (i / 8) 0
  let updated := if b then old ||| 2 ^ (i % 8) else old &&& (255 - 2 ^ (i % 8))
  bytes.set (i / 8) updated

theorem bitmap_set_length (bytes : List Nat) (i : Nat) (b : Bool) :
    (bitmap_set bytes i b).length = bytes.length := by
  simp [bitmap_set]

theorem byteBit_update (old bi bj : Nat) (b : Bool) (hbi : bi < 8)
    (hbj : bj < 8) :
    (if b then old ||| 2 ^ bi else old &&& (255 - 2 ^ bi)).testBit bj =
      if bi = bj then b else old.testBit bj := by
  have h255x : (255 - 2 ^ bi) = 255 ^^^ 2 ^ bi := by
    interval_cases bi <;> rfl
  have h255t : (255 : Nat).testBit bj = true := by
    interval_cases bj <;> rfl
  cases b with
  | true =>
      simp only [if_pos trivial, Nat.testBit_lor, Nat.testBit_two_pow]
      by_cases hb : bi = bj <;> simp [hb]
  | false =>
      simp only [Bool.false_eq_true, if_false, h255x, Nat.testBit_land,
        Nat.testBit_xor, Nat.testBit_two_pow, h255t]
      by_cases hb : bi = bj <;> simp [hb]

theorem bitmap_get_bitmap_set_self (bytes : List Nat) (i : Nat) (b : Bool)
    (h : i / 8 < bytes.length) :
    bitmap_get (bitmap_set bytes i b) i = b := by
  have hmod : i % 8 < 8 := Nat.mod_lt _ (by norm_num)
  simp only [bitmap_get, bitmap_set]
  rw [List.getD_eq_getElem _ _ (by simpa using h)]
  rw [List.getElem_set_self (by simpa using h)]
  rw [List.getD_eq_getElem _ _ h]
  rw [byteBit_update _ _ _ _ hmod hmod]
  simp

theorem bitmap_get_bitmap_set_ne (bytes : List Nat) (i j : Nat) (b : Bool)
    (hne : i ≠ j) : bitmap_get (bitmap_set bytes i b) j = bitmap_get bytes j := by
  have himod : i % 8 < 8 := Nat.mod_lt _ (by norm_num)
  have hjmod : j % 8 < 8 := Nat.mod_lt _ (by norm_num)
  simp only [bitmap_get, bitmap_set]
  by_cases hbyte : i / 8 = j / 8
  · by_cases hlt : j / 8 < bytes.length
    · rw [← hbyte] at hlt ⊢
      rw [List.getD_eq_getElem _ _ (by simpa using hlt)]
      rw [List.getElem_set_self (by simpa using hlt)]
      rw [List.getD_eq_getElem _ _ hlt]
      rw [byteBit_update _ _ _ _ himod hjmod]
      have hbit : ¬ i % 8 = j % 8 := by omega
      simp [hbit]
    · rw [← hbyte] at hlt
      rw [List.getD_eq_default _ _ (by simpa using by omega : _),
        List.getD_eq_default _ _ (by omega)]
  · rcases Nat.lt_or_ge (j / 8) bytes.length with hj | hj
    · rw [List.getD_eq_getElem _ _ (by simpa using hj),
        List.getD_eq_getElem _ _ hj, List.getElem_set_ne (by omega)]
    · rw [List.getD_eq_default _ _ (by simpa using hj),
        List.getD_eq_default _ _ hj]

/-! ## Data page (`data_page.rs`) -/

/-- `data_page.rs`: `get_page_header_size()` =
`2 × PAGE_ID_SIZE + SLOT_ID_SIZE + FREE_START_SIZE + VALID_SLOT_BITMAP_SIZE
+ MAX_SLOTS × SLOT_SIZE` = 1063. -/
def data_page_header_size : Nat := 2 * 4 + 1 + 2 + 32 + MAX_SLOTS * 4

/-- `data_page.rs`: `PAYLOAD_SIZE = PAGE_SIZE - get_page_header_size()`. -/
def PAYLOAD_SIZE : Nat := PAGE_SIZE - data_page_header_size

/-- A slot-directory entry `(offset: u16, length: u16)`. -/
structure Slot where
  offset : Nat
  length : Nat
deriving DecidableEq, Repr

/-- `data_page.rs`: the `DataPage` struct.  `slots` has `MAX_SLOTS`
entries, `valid_slots` is 32 bytes, `data` is `PAYLOAD_SIZE` bytes. -/
structure DataPage where
  id : Nat
  next_id : Nat
  next_slot : Nat
  free_start : Nat
  slots : List (Option Slot)
  valid_slots : List Nat
  data : List Nat
deriving DecidableEq, Repr

namespace DataPage

/-- `DataPage::new` (`Page::new` for data pages). -/
def new (id : Nat) : DataPage :=
  { id := id, next_id := 0, next_slot := 0,
    free_start := PAYLOAD_SIZE,
    slots := List.replicate MAX_SLOTS none,
    valid_slots := List.replicate 32 0,
    data := List.replicate PAYLOAD_SIZE 0 }

/-- Write `record` into `data` at byte `offset`
(`data[offset..offset+len].copy_from_slice(record)` once in bounds). -/
def writeRange (data : List Nat) (offset : Nat) (record : List Nat) : List Nat :=
  data.take offset ++ record ++ data.drop (offset + record.length)

/-- Outcome of `DataPage::insert_record`: `ok` is `Some(slot_id)` together
with the mutated page, `fail` is `None`, `panik` is a Rust panic (an
out-of-bounds slice or a `copy_from_slice` length mismatch). -/
inductive InsertOutcome where
  | ok (slot : Nat) (page : DataPage)
  | fail
  | panik
deriving DecidableEq, Repr

/-- `DataPage::insert_record`.  The source casts the record length to `u16`
(`record.len() as u16`), so the length is reduced modulo 2^16 before the
free-space check; a record of 2^16 bytes or more then reaches
`copy_from_slice` with mismatched slice lengths and panics. -/
def insert_record (p : DataPage) (record : List Nat) : InsertOutcome :=
  if p.next_slot ≥ MAX_SLOTS then .fail
  else
    let record_len := record.length % 2 ^ 16
    if record_len > p.free_start then .fail
    else
      let free_start1 := p.free_start - record_len
      let offset := free_start1
      if offset + record_len > p.data.length then .panik
      else if record.length ≠ record_len then .panik
      else
        .ok p.next_slot
          { p with
              free_start := free_start1,
              data := writeRange p.data offset record,
              valid_slots := bitmap_set p.valid_slots p.next_slot true,
              slots := p.slots.set p.next_slot (some ⟨offset, record_len⟩),
              next_slot := p.next_slot + 1 }

/-- `DataPage::get_record`: the bytes, iff the valid bit is set and the
directory entry is present. -/
def get_record (p : DataPage) (slot_id : Nat) : Option (List Nat) :=
  if ¬ bitmap_get p.valid_slots slot_id then none
  else
    match p.slots.getD slot_id none with
    | some slot => some ((p.data.drop slot.offset).take slot.length)
    | none => none

end DataPage

/-- A data page coming from a fresh `DataPage::new(1)`. -/
def c6page : DataPage := DataPage.new 1

/-- Claim C6.  Part 1 (the failing input): inserting a 2^16-byte record
into a fresh page does *not* return the absent value the claim requires
(2^16 > free_start = 3033): the length cast to `u16` is 0, the space check
passes, and `copy_from_slice` panics on mismatched slice lengths.
Part 2 (the law the claim states, restricted to records shorter than 2^16
bytes, on pages whose `free_start` does not exceed the payload): the
absent value is returned exactly when `next_slot = MAX_SLOTS` or
`len(bytes) > free_start`, and otherwise the bytes land just below the old
`free_start`, `free_start` drops by `len(bytes)`, the slot entry is
installed at `next_slot`, its valid bit is set, `next_slot` increments,
and the old `next_slot` is returned. -/
theorem c6_insert_record_spec :
    c6page.insert_record (List.replicate (2 ^ 16) 0) = .panik ∧
    (∀ (p : DataPage) (record : List Nat),
        record.length < 2 ^ 16 → p.free_start ≤ p.data.length →
        ((p.insert_record record = .fail ↔
            (p.next_slot ≥ MAX_SLOTS ∨ record.length > p.free_start)) ∧
         (p.next_slot < MAX_SLOTS → record.length ≤ p.free_start →
            p.insert_record record =
              .ok p.next_slot
                { p with
                    free_start := p.free_start - record.length,
                    data := DataPage.writeRange p.data
                      (p.free_start - record.length) record,
                    valid_slots := bitmap_set p.valid_slots p.next_slot true,
                    slots := p.slots.set p.next_slot
                      (some ⟨p.free_start - record.length, record.length⟩),
                    next_slot := p.next_slot + 1 }))) := by
  constructor
  · have hlen : (List.replicate (2 ^ 16) (0 : Nat)).length = 2 ^ 16 :=
      List.length_replicate ..
    have hns : c6page.next_slot = 0 := rfl
    have hfs : c6page.free_start = 3033 := by
      show PAYLOAD_SIZE = 3033
      norm_num [PAYLOAD_SIZE, data_page_header_size, PAGE_SIZE, MAX_SLOTS]
    have hdl : c6page.data.length = 3033 := by
      show (List.replicate PAYLOAD_SIZE (0 : Nat)).length = 3033
      rw [List.length_replicate]
      norm_num [PAYLOAD_SIZE, data_page_header_size, PAGE_SIZE, MAX_SLOTS]
    rw [DataPage.insert_record]
    rw [if_neg (by rw [hns]; norm_num [MAX_SLOTS])]
    simp only [hlen, hdl, hfs, Nat.mod_self]
    norm_num
  · intro p record hlen hfs
    have hmod : record.length % 2 ^ 16 = record.length := Nat.mod_eq_of_lt hlen
    constructor
    · rw [DataPage.insert_record]
      by_cases h1 : p.next_slot ≥ MAX_SLOTS
      · rw [if_pos h1]; simp [h1]
      · rw [if_neg h1]
        simp only [hmod]
        by_cases h2 : record.length > p.free_start
        · rw [if_pos h2]; simp [h2]
        · rw [if_neg h2]
          rw [if_neg (by omega)]
          rw [if_neg (by omega)]
          simp [h1, h2]
    · intro h1 h2
      rw [DataPage.insert_record]
      rw [if_neg (by omega)]
      simp only [hmod]
      rw [if_neg (by omega)]
      rw [if_neg (by omega)]
      rw [if_neg (by omega)]

/-- Witness for C6: the law applied to a fresh page and the record
`[7, 8, 9]` — the insert succeeds at slot 0 with `free_start` dropping
from 3033 to 3030. -/
theorem c6_insert_record_spec_witness :
    ((c6page.insert_record [7, 8, 9] = .fail ↔
        (c6page.next_slot ≥ MAX_SLOTS ∨ [7, 8, 9].length > c6page.free_start)) ∧
     (c6page.next_slot < MAX_SLOTS → [7, 8, 9].length ≤ c6page.free_start →
        c6page.insert_record [7, 8, 9] =
          .ok c6page.next_slot
            { c6page with
                free_start := c6page.free_start - [7, 8, 9].length,
                data := DataPage.writeRange c6page.data
                  (c6page.free_start - [7, 8, 9].length) [7, 8, 9],
                valid_slots := bitmap_set c6page.valid_slots c6page.next_slot true,
                slots := c6page.slots.set c6page.next_slot
                  (some ⟨c6page.free_start - [7, 8, 9].length, [7, 8, 9].length⟩),
                next_slot := c6page.next_slot + 1 })) :=
  c6_insert_record_spec.2 c6page [7, 8, 9] (by norm_num)
    (by simp [c6page, DataPage.new])

/-! ## Data-page serialization (`data_page.rs`) -/

/-- One slot-directory entry on disk: `(offset, length)` as two
little-endian `u16`s; an absent entry is four zero bytes. -/
def slotBytes : Option Slot → List Nat
  | some s => toLeBytes 2 s.offset ++ toLeBytes 2 s.length
  | none => [0, 0, 0, 0]

/-- `DataPage::serialize`: header fields, the valid-slot bitmap, the slot
directory, then the payload; with fields of their nominal sizes this fills
the `PAGE_SIZE` buffer exactly. -/
def DataPage.serialize (p : DataPage) : List Nat :=
  toLeBytes 4 p.id ++ toLeBytes 4 p.next_id ++ toLeBytes 1 p.next_slot ++
  toLeBytes 2 p.free_start ++ p.valid_slots ++
  p.slots.flatMap slotBytes ++ p.data

/-- The slot-directory loop of `DataPage::deserialize`: `n` entries of 4
bytes each; `(0, 0)` decodes to an absent entry.  Returns the entries and
the rest of the buffer. -/
def readSlotEntries : Nat → List Nat → List (Option Slot) × List Nat
  | 0, buf => ([], buf)
  | n + 1, buf =>
      let offset := fromLeBytes (buf.take 2)
      let length := fromLeBytes ((buf.drop 2).take 2)
      let entry : Option Slot :=
        if offset = 0 ∧ length = 0 then none else some ⟨offset, length⟩
      (entry :: (readSlotEntries n (buf.drop 4)).1,
       (readSlotEntries n (buf.drop 4)).2)

/-- `DataPage::deserialize`.  Every read is of a fixed width inside the
`PAGE_SIZE` array, so the source never fails: it performs *no* validation
of the decoded values and always returns `Some`.  The payload is the
remainder of the buffer (`buf[get_page_header_size()..]`). -/
def DataPage.deserialize (buf : List Nat) : Option DataPage :=
  let id := fromLeBytes (buf.take 4)
  let b1 := buf.drop 4
  let next_id := fromLeBytes (b1.take 4)
  let b2 := b1.drop 4
  let next_slot := fromLeBytes (b2.take 1)
  let b3 := b2.drop 1
  let free_start := fromLeBytes (b3.take 2)
  let b4 := b3.drop 2
  let valid_slots := b4.take 32
  let b5 := b4.drop 32
  some { id := id, next_id := next_id, next_slot := next_slot,
         free_start := free_start, valid_slots := valid_slots,
         slots := (readSlotEntries MAX_SLOTS b5).1,
         data := (readSlotEntries MAX_SLOTS b5).2 }

/-! ## Header page (`header_page.rs`) -/

/-- `header_page.rs`: `MAX_HEADERS = 2 × size_of::<PageId>() +
size_of::<u32>() = 12` (the fixed header bytes before the bitmap). -/
def MAX_HEADERS : Nat := 2 * 4 + 4

/-- `FREE_HEADER_SIZE = PAGE_SIZE - MAX_HEADERS = 4084`: bitmap bytes per
header page. -/
def FREE_HEADER_SIZE : Nat := PAGE_SIZE - MAX_HEADERS

/-- `header_page.rs`: the `HeaderPage` struct. -/
structure HeaderPage where
  id : Nat
  next : Nat
  offset : Nat
  free_slot : List Nat
deriving DecidableEq, Repr

namespace HeaderPage

/-- `Page::new` for header pages. -/
def new (id : Nat) : HeaderPage :=
  { id := id, next := 0, offset := 0,
    free_slot := List.replicate FREE_HEADER_SIZE 0 }

/-- `HeaderPage::get_next`: `Some(next)` iff `next != 0`. -/
def get_next (p : HeaderPage) : Option Nat :=
  if p.next ≠ 0 then some p.next else none

/-- `HeaderPage::set_next`. -/
def set_next (p : HeaderPage) (next : Nat) : HeaderPage :=
  { p with next := next }

/-- `HeaderPage::get_offset`. -/
def get_offset (p : HeaderPage) : Nat := p.offset

/-- `HeaderPage::set_offset`: note the source multiplies its argument by
`FREE_HEADER_SIZE * 8` (`self.offset = (index * FREE_HEADER_SIZE * 8) as
u32`), whatever the caller passes. -/
def set_offset (p : HeaderPage) (index : Nat) : HeaderPage :=
  { p with offset := index * FREE_HEADER_SIZE * 8 }

/-- `HeaderPage::get_slot`: index of the first clear bit of the bitmap, if
any — the word-scanning loop of the source computes exactly the smallest
`i < FREE_HEADER_SIZE × 8` whose bit is 0. -/
def get_slot (p : HeaderPage) : Option Nat :=
  (List.range' 0 (FREE_HEADER_SIZE * 8)).find? (fun i => ¬ bitmap_get p.free_slot i)

/-- `HeaderPage::allocate_header`: mark the first free slot used and return
`offset + index + 1` (page ids start at 1). -/
def allocate_header (p : HeaderPage) : Option (Nat × HeaderPage) :=
  match p.get_slot with
  | some index =>
      some (p.offset + index + 1,
        { p with free_slot := bitmap_set p.free_slot index true })
  | none => none

/-- `HeaderPage::deallocate_header`: clear bit `page_id - offset - 1`;
`none` models the panic on double free (and the `usize` underflow when
`page_id ≤ offset`). -/
def deallocate_header (p : HeaderPage) (page_id : Nat) : Option HeaderPage :=
  if page_id < p.offset + 1 then none
  else if bitmap_get p.free_slot (page_id - p.offset - 1) then
    some { p with free_slot := bitmap_set p.free_slot (page_id - p.offset - 1) false }
  else none

/-- `HeaderPage::serialize`: `id | next | offset | bitmap`, 12 + 4084
bytes. -/
def serialize (p : HeaderPage) : List Nat :=
  toLeBytes 4 p.id ++ toLeBytes 4 p.next ++ toLeBytes 4 p.offset ++ p.free_slot

/-- `HeaderPage::deserialize`: fixed-width reads; never fails. -/
def deserialize (buf : List Nat) : Option HeaderPage :=
  let id := fromLeBytes (buf.take 4)
  let b1 := buf.drop 4
  let next := fromLeBytes (b1.take 4)
  let b2 := b1.drop 4
  let offset := fromLeBytes (b2.take 4)
  let b3 := b2.drop 4
  some { id := id, next := next, offset := offset,
         free_slot := b3.take FREE_HEADER_SIZE }

end HeaderPage

/-! ## Index-page serialization (`index_page.rs`) -/

/-- `page_type as u8`. -/
def indexTypeByte : IndexType → Nat
  | IndexType.Leaf => 0
  | IndexType.Internal => 1

/-- `IndexPage::serialize`.  The internal loop writes `(key, children[i])`
for each key index (modelled with `zip`, which agrees with the indexed
loop whenever there are at least as many children as keys) and then the
last child whenever `children` is non-empty; the leaf branch writes
`has_next | next` then `(key, rid)` triples.  The tail of the 4096-byte
buffer stays zero; the model appends the zero padding (the source would
panic if the content overran `PAGE_SIZE`, which the capacity bounds used
in the theorems below rule out). -/
def IndexPage.serialize (p : IndexPage) : List Nat :=
  let content :=
    toLeBytes 4 p.id ++ [indexTypeByte p.page_type] ++
    toLeBytes 2 p.keys.length ++
    (match p.page_type with
     | IndexType.Internal =>
         ((p.keys.zip p.children).flatMap
           (fun kc => i64ToLeBytes kc.1 ++ toLeBytes 4 kc.2)) ++
         (match p.children.getLast? with
          | some last => toLeBytes 4 last
          | none => [])
     | IndexType.Leaf =>
         (match p.next with
          | some nx => 1 :: toLeBytes 4 nx
          | none => [0, 0, 0, 0, 0]) ++
         ((p.keys.zip p.rids).flatMap
           (fun kr => i64ToLeBytes kr.1 ++ toLeBytes 4 kr.2.page_id ++
             toLeBytes 1 kr.2.slot_id)))
  content ++ List.replicate (PAGE_SIZE - content.length) 0

/-- Result of `IndexPage::deserialize`: `ok` is `Some(page)`, `invalid` is
the `None` produced by an unknown page-type byte, `panik` is the Rust
panic raised by slicing past the end of the `PAGE_SIZE` buffer. -/
inductive DeserResult (α : Type) where
  | ok (val : α)
  | invalid
  | panik
deriving DecidableEq, Repr

/-- `buf[cursor..cursor+n]` with the cursor advanced: `none` when fewer
than `n` bytes remain (the slice panics in Rust). -/
def readN (n : Nat) (buf : List Nat) : Option (List Nat × List Nat) :=
  if n ≤ buf.length then some (buf.take n, buf.drop n) else none

/-- The internal-node loop of `IndexPage::deserialize`: `n` repetitions of
`(key: 8 bytes, child: 4 bytes)`; `none` is a slice panic. -/
def readKeyChildPairs : Nat → List Nat → Option (List Int × List Nat × List Nat)
  | 0, buf => some ([], [], buf)
  | n + 1, buf =>
      match readN 8 buf with
      | none => none
      | some (kb, b1) =>
          match readN 4 b1 with
          | none => none
          | some (cb, b2) =>
              match readKeyChildPairs n b2 with
              | none => none
              | some (ks, cs, b3) =>
                  some (i64FromLeBytes kb :: ks, fromLeBytes cb :: cs, b3)

/-- The leaf loop of `IndexPage::deserialize`: `n` repetitions of
`(key: 8, page_id: 4, slot_id: 1)`. -/
def readKeyRidTriples : Nat → List Nat → Option (List Int × List RecordId × List Nat)
  | 0, buf => some ([], [], buf)
  | n + 1, buf =>
      match readN 8 buf with
      | none => none
      | some (kb, b1) =>
          match readN 4 b1 with
          | none => none
          | some (pb, b2) =>
              match readN 1 b2 with
              | none => none
              | some (sb, b3) =>
                  match readKeyRidTriples n b3 with
                  | none => none
                  | some (ks, rs, b4) =>
                      some (i64FromLeBytes kb :: ks,
                        ⟨fromLeBytes pb, fromLeBytes sb⟩ :: rs, b4)

/-- `IndexPage::deserialize`.  An unknown page-type byte yields `invalid`
(`IndexType::from_byte` returning `None`); an out-of-range slice — which a
`keys_len` too large for the page forces — yields `panik`.  The trailing
child of an internal node is read only when `keys_len > 0`, and the leaf's
`next` pointer is read only when the `has_next` byte is 1 (the cursor
skips those four bytes regardless). -/
def IndexPage.deserialize (buf : List Nat) : DeserResult IndexPage :=
  match readN 4 buf with
  | none => DeserResult.panik
  | some (idb, b1) =>
      match b1.head? with
      | none => DeserResult.panik
      | some tb =>
          let b2 := b1.tail
          let id := fromLeBytes idb
          if tb = 0 then
            -- Leaf
            match readN 2 b2 with
            | none => DeserResult.panik
            | some (klb, b3) =>
                let keys_len := fromLeBytes klb
                match b3.head? with
                | none => DeserResult.panik
                | some hb =>
                    let b4 := b3.tail
                    if hb = 1 then
                      match readN 4 b4 with
                      | none => DeserResult.panik
                      | some (nxb, b5) =>
                          match readKeyRidTriples keys_len b5 with
                          | none => DeserResult.panik
                          | some (ks, rs, _) =>
                              DeserResult.ok
                                { id := id, page_type := IndexType.Leaf,
                                  keys := ks, rids := rs, children := [],
                                  next := some (fromLeBytes nxb) }
                    else
                      match readKeyRidTriples keys_len (b4.drop 4) with
                      | none => DeserResult.panik
                      | some (ks, rs, _) =>
                          DeserResult.ok
                            { id := id, page_type := IndexType.Leaf,
                              keys := ks, rids := rs, children := [],
                              next := none }
          else if tb = 1 then
            -- Internal
            match readN 2 b2 with
            | none => DeserResult.panik
            | some (klb, b3) =>
                let keys_len := fromLeBytes klb
                match readKeyChildPairs keys_len b3 with
                | none => DeserResult.panik
                | some (ks, cs, b4) =>
                    if keys_len > 0 then
                      match readN 4 b4 with
                      | none => DeserResult.panik
                      | some (lcb, _) =>
                          DeserResult.ok
                            { id := id, page_type := IndexType.Internal,
                              keys := ks, rids := [],
                              children := cs ++ [fromLeBytes lcb],
                              next := none }
                    else
                      DeserResult.ok
                        { id := id, page_type := IndexType.Internal,
                          keys := ks, rids := [], children := cs,
                          next := none }
          else DeserResult.invalid

/-- A `PAGE_SIZE` data-page image whose slot 0 declares
`(offset 3000, length 200)` — a byte range that extends 167 bytes past the
3033-byte payload region. -/
def c7badPage : DataPage :=
  { DataPage.new 5 with
      slots := (List.replicate MAX_SLOTS (none : Option Slot)).set 0
        (some ⟨3000, 200⟩) }

/-- A `PAGE_SIZE` index-page image declaring `keys_len = 341` — more
key/child pairs than the 4096-byte page can physically hold
(`get_internal_capacity() = 340`). -/
def c7badIndexBuf : List Nat :=
  toLeBytes 4 9 ++ [1] ++ toLeBytes 2 341 ++ List.replicate 4089 0

/-! ## Round-trip lemmas for the serializers -/

theorem readN_append (a b : List Nat) (n : Nat) (h : a.length = n) :
    readN n (a ++ b) = some (a, b) := by
  rw [readN, if_pos (by simp [h]), List.take_left' h, List.drop_left' h]

theorem zip_append_right_of_length_eq {α β : Type} (l : List α)
    (l1 l2 : List β) (h : l.length = l1.length) :
    l.zip (l1 ++ l2) = l.zip l1 := by
  induction l generalizing l1 with
  | nil => simp
  | cons x xs ih =>
      cases l1 with
      | nil => simp at h
      | cons y ys =>
          simp only [List.cons_append, List.zip_cons_cons]
          rw [ih ys (by simpa using h)]

theorem fromLeBytes_toLeBytes_eq (k n : Nat) (h : n < 256 ^ k) :
    fromLeBytes (toLeBytes k n) = n := by
  rw [fromLeBytes_toLeBytes, Nat.mod_eq_of_lt h]

theorem readSlotEntries_flatMap (sl : List (Option Slot)) (rest : List Nat)
    (hwf : ∀ t : Slot, some t ∈ sl →
      t.offset < 2 ^ 16 ∧ t.length < 2 ^ 16 ∧ ¬ (t.offset = 0 ∧ t.length = 0)) :
    readSlotEntries sl.length (sl.flatMap slotBytes ++ rest) = (sl, rest) := by
  induction sl with
  | nil => simp [readSlotEntries]
  | cons o os ih =>
      have ihx := ih (fun t ht => hwf t (by simp [ht]))
      have t2 : ∀ (a b : Nat) (R : List Nat), (a :: b :: R).take 2 = [a, b] :=
        fun a b R => rfl
      have d2 : ∀ (a b : Nat) (R : List Nat), (a :: b :: R).drop 2 = R :=
        fun a b R => rfl
      have d4 : ∀ (a b c d : Nat) (R : List Nat),
          (a :: b :: c :: d :: R).drop 4 = R := fun a b c d R => rfl
      cases o with
      | none =>
          show readSlotEntries (os.length + 1)
            (0 :: 0 :: 0 :: 0 :: (os.flatMap slotBytes ++ rest)) = _
          rw [readSlotEntries]
          simp only [t2, d2, d4, ihx, fromLeBytes]
          norm_num
      | some t =>
          obtain ⟨h1, h2, h3⟩ := hwf t (by simp)
          show readSlotEntries (os.length + 1)
            (((toLeBytes 2 t.offset ++ toLeBytes 2 t.length) ++
              os.flatMap slotBytes) ++ rest) = _
          rw [readSlotEntries]
          have e4 : ((toLeBytes 2 t.offset ++ toLeBytes 2 t.length) ++
              os.flatMap slotBytes) ++ rest =
              toLeBytes 2 t.offset ++ (toLeBytes 2 t.length ++
                (os.flatMap slotBytes ++ rest)) := by
            simp [List.append_assoc]
          rw [e4]
          rw [List.take_left' (toLeBytes_length ..), List.drop_left' (toLeBytes_length ..)]
          rw [List.take_left' (toLeBytes_length ..)]
          have e5 : (toLeBytes 2 t.offset ++ (toLeBytes 2 t.length ++
              (os.flatMap slotBytes ++ rest))).drop 4 =
              os.flatMap slotBytes ++ rest := by
            rw [show (4 : Nat) = 2 + 2 from rfl, ← List.drop_drop 2 2]
            rw [List.drop_left' (toLeBytes_length ..), List.drop_left' (toLeBytes_length ..)]
          rw [e5]
          simp only [ihx]
          rw [fromLeBytes_toLeBytes_eq _ _ (by norm_num at h1 ⊢; omega),
            fromLeBytes_toLeBytes_eq _ _ (by norm_num at h2 ⊢; omega)]
          simp [h3]

/-- Structural well-formedness of a `DataPage` as stored on disk: nominal
field widths and no `(0, 0)` slot entry (the spec's encoding of absence). -/
def DataPage.wf (p : DataPage) : Prop :=
  p.id < 2 ^ 32 ∧ p.next_id < 2 ^ 32 ∧ p.next_slot < 2 ^ 8 ∧
  p.free_start < 2 ^ 16 ∧ p.valid_slots.length = 32 ∧
  p.slots.length = MAX_SLOTS ∧
  (∀ t : Slot, some t ∈ p.slots →
    t.offset < 2 ^ 16 ∧ t.length < 2 ^ 16 ∧ ¬ (t.offset = 0 ∧ t.length = 0))

theorem dataPage_round_trip (p : DataPage) (h : p.wf) :
    DataPage.deserialize (DataPage.serialize p) = some p := by
  obtain ⟨h1, h2, h3, h4, h5, h6, h7⟩ := h
  rw [DataPage.serialize, DataPage.deserialize]
  have e0 : toLeBytes 4 p.id ++ toLeBytes 4 p.next_id ++ toLeBytes 1 p.next_slot ++
      toLeBytes 2 p.free_start ++ p.valid_slots ++ p.slots.flatMap slotBytes ++ p.data =
      toLeBytes 4 p.id ++ (toLeBytes 4 p.next_id ++ (toLeBytes 1 p.next_slot ++
      (toLeBytes 2 p.free_start ++ (p.valid_slots ++ (p.slots.flatMap slotBytes ++ p.data))))) := by
    simp [List.append_assoc]
  rw [e0]
  rw [List.take_left' (toLeBytes_length ..), List.drop_left' (toLeBytes_length ..),
    List.take_left' (toLeBytes_length ..), List.drop_left' (toLeBytes_length ..),
    List.take_left' (toLeBytes_length ..), List.drop_left' (toLeBytes_length ..),
    List.take_left' (toLeBytes_length ..), List.drop_left' (toLeBytes_length ..),
    List.take_left' h5, List.drop_left' h5]
  rw [show MAX_SLOTS = p.slots.length from h6.symm]
  rw [readSlotEntries_flatMap p.slots p.data h7]
  rw [fromLeBytes_toLeBytes_eq _ _ (by norm_num at h1 ⊢; omega),
    fromLeBytes_toLeBytes_eq _ _ (by norm_num at h2 ⊢; omega),
    fromLeBytes_toLeBytes_eq _ _ (by norm_num at h3 ⊢; omega),
    fromLeBytes_toLeBytes_eq _ _ (by norm_num at h4 ⊢; omega)]

/-- Structural well-formedness of a `HeaderPage` on disk. -/
def HeaderPage.wf (p : HeaderPage) : Prop :=
  p.id < 2 ^ 32 ∧ p.next < 2 ^ 32 ∧ p.offset < 2 ^ 32 ∧
  p.free_slot.length = FREE_HEADER_SIZE

theorem headerPage_round_trip (p : HeaderPage) (h : p.wf) :
    HeaderPage.deserialize (HeaderPage.serialize p) = some p := by
  obtain ⟨h1, h2, h3, h4⟩ := h
  rw [HeaderPage.serialize, HeaderPage.deserialize]
  have e0 : toLeBytes 4 p.id ++ toLeBytes 4 p.next ++ toLeBytes 4 p.offset ++
      p.free_slot = toLeBytes 4 p.id ++ (toLeBytes 4 p.next ++
      (toLeBytes 4 p.offset ++ p.free_slot)) := by simp [List.append_assoc]
  rw [e0]
  rw [List.take_left' (toLeBytes_length ..), List.drop_left' (toLeBytes_length ..),
    List.take_left' (toLeBytes_length ..), List.drop_left' (toLeBytes_length ..),
    List.take_left' (toLeBytes_length ..), List.drop_left' (toLeBytes_length ..)]
  rw [show p.free_slot.take FREE_HEADER_SIZE = p.free_slot from by
    rw [← h4]; exact List.take_length p.free_slot]
  rw [fromLeBytes_toLeBytes_eq _ _ (by norm_num at h1 ⊢; omega),
    fromLeBytes_toLeBytes_eq _ _ (by norm_num at h2 ⊢; omega),
    fromLeBytes_toLeBytes_eq _ _ (by norm_num at h3 ⊢; omega)]

theorem readKeyChildPairs_flatMap (ks : List Int) (cs : List Nat)
    (rest : List Nat) (hlen : cs.length = ks.length)
    (hks : ∀ k ∈ ks, -(2 ^ 63) ≤ k ∧ k < 2 ^ 63)
    (hcs : ∀ c ∈ cs, c < 2 ^ 32) :
    readKeyChildPairs ks.length
      ((ks.zip cs).flatMap (fun kc => i64ToLeBytes kc.1 ++ toLeBytes 4 kc.2) ++
        rest) = some (ks, cs, rest) := by
  induction ks generalizing cs with
  | nil =>
      cases cs with
      | nil => simp [readKeyChildPairs]
      | cons c cs2 => simp at hlen
  | cons k ks2 ih =>
      cases cs with
      | nil => simp at hlen
      | cons c cs2 =>
          obtain ⟨hk1, hk2⟩ := hks k (by simp)
          have hc := hcs c (by simp)
          show readKeyChildPairs (ks2.length + 1)
            (((i64ToLeBytes k ++ toLeBytes 4 c) ++
              (ks2.zip cs2).flatMap
                (fun kc => i64ToLeBytes kc.1 ++ toLeBytes 4 kc.2)) ++ rest) = _
          rw [readKeyChildPairs]
          have e0 : ((i64ToLeBytes k ++ toLeBytes 4 c) ++
              (ks2.zip cs2).flatMap
                (fun kc => i64ToLeBytes kc.1 ++ toLeBytes 4 kc.2)) ++ rest =
              i64ToLeBytes k ++ (toLeBytes 4 c ++
                ((ks2.zip cs2).flatMap
                  (fun kc => i64ToLeBytes kc.1 ++ toLeBytes 4 kc.2) ++ rest)) := by
            simp [List.append_assoc]
          rw [e0]
          simp only [readN_append _ _ _ (i64ToLeBytes_length ..),
            readN_append _ _ _ (toLeBytes_length ..),
            ih cs2 (by simpa using hlen) (fun x hx => hks x (by simp [hx]))
              (fun x hx => hcs x (by simp [hx])),
            i64FromLeBytes_i64ToLeBytes k hk1 hk2,
            fromLeBytes_toLeBytes_eq 4 c (by norm_num at hc ⊢; omega)]

theorem readKeyRidTriples_flatMap (ks : List Int) (rs : List RecordId)
    (rest : List Nat) (hlen : rs.length = ks.length)
    (hks : ∀ k ∈ ks, -(2 ^ 63) ≤ k ∧ k < 2 ^ 63)
    (hrs : ∀ r ∈ rs, r.page_id < 2 ^ 32 ∧ r.slot_id < 2 ^ 8) :
    readKeyRidTriples ks.length
      ((ks.zip rs).flatMap (fun kr => i64ToLeBytes kr.1 ++
        toLeBytes 4 kr.2.page_id ++ toLeBytes 1 kr.2.slot_id) ++ rest) =
      some (ks, rs, rest) := by
  induction ks generalizing rs with
  | nil =>
      cases rs with
      | nil => simp [readKeyRidTriples]
      | cons r rs2 => simp at hlen
  | cons k ks2 ih =>
      cases rs with
      | nil => simp at hlen
      | cons r rs2 =>
          obtain ⟨hk1, hk2⟩ := hks k (by simp)
          obtain ⟨hr1, hr2⟩ := hrs r (by simp)
          show readKeyRidTriples (ks2.length + 1)
            (((i64ToLeBytes k ++ toLeBytes 4 r.page_id ++
               toLeBytes 1 r.slot_id) ++
              (ks2.zip rs2).flatMap (fun kr => i64ToLeBytes kr.1 ++
                toLeBytes 4 kr.2.page_id ++ toLeBytes 1 kr.2.slot_id)) ++
              rest) = _
          rw [readKeyRidTriples]
          have e0 : ((i64ToLeBytes k ++ toLeBytes 4 r.page_id ++
              toLeBytes 1 r.slot_id) ++
              (ks2.zip rs2).flatMap (fun kr => i64ToLeBytes kr.1 ++
                toLeBytes 4 kr.2.page_id ++ toLeBytes 1 kr.2.slot_id)) ++
              rest =
              i64ToLeBytes k ++ (toLeBytes 4 r.page_id ++
                (toLeBytes 1 r.slot_id ++
                  ((ks2.zip rs2).flatMap (fun kr => i64ToLeBytes kr.1 ++
                    toLeBytes 4 kr.2.page_id ++ toLeBytes 1 kr.2.slot_id) ++
                    rest))) := by
            simp [List.append_assoc]
          rw [e0]
          simp only [readN_append _ _ _ (i64ToLeBytes_length ..),
            readN_append _ _ _ (toLeBytes_length ..),
            ih rs2 (by simpa using hlen) (fun x hx => hks x (by simp [hx]))
              (fun x hx => hrs x (by simp [hx])),
            i64FromLeBytes_i64ToLeBytes k hk1 hk2,
            fromLeBytes_toLeBytes_eq 4 r.page_id (by norm_num at hr1 ⊢; omega),
            fromLeBytes_toLeBytes_eq 1 r.slot_id (by norm_num at hr2 ⊢; omega)]

/-- Structural well-formedness of a leaf `IndexPage` on disk.  `314` is
`get_leaf_capacity()`. -/
def IndexPage.wfLeaf (p : IndexPage) : Prop :=
  p.page_type = IndexType.Leaf ∧ p.children = [] ∧ p.id < 2 ^ 32 ∧
  p.rids.length = p.keys.length ∧ p.keys.length ≤ 314 ∧
  (∀ k ∈ p.keys, -(2 ^ 63) ≤ k ∧ k < 2 ^ 63) ∧
  (∀ r ∈ p.rids, r.page_id < 2 ^ 32 ∧ r.slot_id < 2 ^ 8) ∧
  (∀ nx, p.next = some nx → nx < 2 ^ 32)

/-- Structural well-formedness of an internal `IndexPage` on disk.  `340`
is `get_internal_capacity()`. -/
def IndexPage.wfInternal (p : IndexPage) : Prop :=
  p.page_type = IndexType.Internal ∧ p.rids = [] ∧ p.next = none ∧
  p.keys ≠ [] ∧ p.id < 2 ^ 32 ∧
  p.children.length = p.keys.length + 1 ∧ p.keys.length ≤ 340 ∧
  (∀ k ∈ p.keys, -(2 ^ 63) ≤ k ∧ k < 2 ^ 63) ∧
  (∀ c ∈ p.children, c < 2 ^ 32)

theorem leafPage_round_trip (p : IndexPage) (h : p.wfLeaf) :
    IndexPage.deserialize (IndexPage.serialize p) = DeserResult.ok p := by
  obtain ⟨pid, pty, pks, prs, pch, pnx⟩ := p
  obtain ⟨hty, hch, hid, hlen, hcap, hks, hrs, hnx⟩ := h
  simp only at hty hch hid hlen hcap hks hrs hnx
  subst hty; subst hch
  have hklen : fromLeBytes (toLeBytes 2 pks.length) = pks.length :=
    fromLeBytes_toLeBytes_eq 2 pks.length (by norm_num; omega)
  have hidr : fromLeBytes (toLeBytes 4 pid) = pid :=
    fromLeBytes_toLeBytes_eq 4 pid (by norm_num at hid ⊢; omega)
  have htr : ∀ rest : List Nat, readKeyRidTriples pks.length
      ((pks.zip prs).flatMap (fun kr => i64ToLeBytes kr.1 ++
        toLeBytes 4 kr.2.page_id ++ toLeBytes 1 kr.2.slot_id) ++ rest) =
      some (pks, prs, rest) :=
    fun rest => readKeyRidTriples_flatMap pks prs rest hlen hks hrs
  cases pnx with
  | some nx =>
      have hnxr : fromLeBytes (toLeBytes 4 nx) = nx :=
        fromLeBytes_toLeBytes_eq 4 nx
          (by have := hnx nx rfl; norm_num at this ⊢; omega)
      simp only [IndexPage.serialize, indexTypeByte]
      have e0 : ∀ pad : List Nat, toLeBytes 4 pid ++ [0] ++
          toLeBytes 2 pks.length ++
          ((1 :: toLeBytes 4 nx) ++
            ((pks.zip prs).flatMap fun kr => i64ToLeBytes kr.1 ++
              toLeBytes 4 kr.2.page_id ++ toLeBytes 1 kr.2.slot_id)) ++ pad =
          toLeBytes 4 pid ++ ((0 : Nat) ::
            (toLeBytes 2 pks.length ++ ((1 : Nat) :: (toLeBytes 4 nx ++
              (((pks.zip prs).flatMap fun kr => i64ToLeBytes kr.1 ++
                toLeBytes 4 kr.2.page_id ++ toLeBytes 1 kr.2.slot_id) ++
                pad))))) := by
        intro pad; simp [List.append_assoc]
      rw [e0, IndexPage.deserialize]
      simp only [readN_append _ _ _ (toLeBytes_length ..), List.head?_cons,
        List.tail_cons, reduceIte, hklen, htr, hidr, hnxr]
  | none =>
      simp only [IndexPage.serialize, indexTypeByte]
      have e0 : ∀ pad : List Nat, toLeBytes 4 pid ++ [0] ++
          toLeBytes 2 pks.length ++
          ([0, 0, 0, 0, 0] ++
            ((pks.zip prs).flatMap fun kr => i64ToLeBytes kr.1 ++
              toLeBytes 4 kr.2.page_id ++ toLeBytes 1 kr.2.slot_id)) ++ pad =
          toLeBytes 4 pid ++ ((0 : Nat) ::
            (toLeBytes 2 pks.length ++ ((0 : Nat) :: (0 : Nat) :: (0 : Nat) ::
              (0 : Nat) :: (0 : Nat) ::
              (((pks.zip prs).flatMap fun kr => i64ToLeBytes kr.1 ++
                toLeBytes 4 kr.2.page_id ++ toLeBytes 1 kr.2.slot_id) ++
                pad)))) := by
        intro pad; simp [List.append_assoc]
      rw [e0, IndexPage.deserialize]
      simp only [readN_append _ _ _ (toLeBytes_length ..), List.head?_cons,
        List.tail_cons, reduceIte, List.drop_succ_cons, List.drop_zero,
        hklen, htr, hidr]
      rw [if_neg (by norm_num : ¬ ((0 : Nat) = 1))]

theorem internalPage_round_trip (p : IndexPage) (h : p.wfInternal) :
    IndexPage.deserialize (IndexPage.serialize p) = DeserResult.ok p := by
  obtain ⟨pid, pty, pks, prs, pch, pnx⟩ := p
  obtain ⟨hty, hrid, hnxe, hne, hid, hchl, hcap, hks, hcs⟩ := h
  simp only at hty hrid hnxe hne hid hchl hcap hks hcs
  subst hty; subst hrid; subst hnxe
  have hchne : pch ≠ [] := by
    intro he; rw [he] at hchl; simp at hchl
  have hklen : fromLeBytes (toLeBytes 2 pks.length) = pks.length :=
    fromLeBytes_toLeBytes_eq 2 pks.length (by norm_num; omega)
  have hidr : fromLeBytes (toLeBytes 4 pid) = pid :=
    fromLeBytes_toLeBytes_eq 4 pid (by norm_num at hid ⊢; omega)
  have hlast : pch.getLast? = some (pch.getLast hchne) :=
    List.getLast?_eq_getLast pch hchne
  have hlastr : fromLeBytes (toLeBytes 4 (pch.getLast hchne)) =
      pch.getLast hchne := by
    have hm := hcs (pch.getLast hchne) (List.getLast_mem hchne)
    exact fromLeBytes_toLeBytes_eq 4 _ (by norm_num at hm ⊢; omega)
  have hdll : pch.dropLast.length = pks.length := by
    rw [List.length_dropLast, hchl]; omega
  have hzip : pks.zip pch = pks.zip pch.dropLast := by
    conv_lhs => rw [← List.dropLast_concat_getLast hchne]
    exact zip_append_right_of_length_eq pks _ _ hdll.symm
  have hpairs : ∀ rest : List Nat, readKeyChildPairs pks.length
      ((pks.zip pch.dropLast).flatMap
        (fun kc => i64ToLeBytes kc.1 ++ toLeBytes 4 kc.2) ++ rest) =
      some (pks, pch.dropLast, rest) :=
    fun rest => readKeyChildPairs_flatMap pks pch.dropLast rest hdll
      hks (fun c hc => hcs c (by
        rw [← List.dropLast_concat_getLast hchne]
        exact List.mem_append_left _ hc))
  simp only [IndexPage.serialize, indexTypeByte, hzip, hlast]
  have e0 : ∀ pad : List Nat, toLeBytes 4 pid ++ [1] ++
      toLeBytes 2 pks.length ++
      (((pks.zip pch.dropLast).flatMap fun kc =>
          i64ToLeBytes kc.1 ++ toLeBytes 4 kc.2) ++
        toLeBytes 4 (pch.getLast hchne)) ++ pad =
      toLeBytes 4 pid ++ ((1 : Nat) ::
        (toLeBytes 2 pks.length ++
          (((pks.zip pch.dropLast).flatMap fun kc =>
              i64ToLeBytes kc.1 ++ toLeBytes 4 kc.2) ++
            (toLeBytes 4 (pch.getLast hchne) ++ pad)))) := by
    intro pad; simp [List.append_assoc]
  rw [e0, IndexPage.deserialize]
  simp only [readN_append _ _ _ (toLeBytes_length ..), List.head?_cons,
    List.tail_cons, reduceIte, hklen, hidr, hpairs]
  rw [if_neg (by norm_num : ¬ ((1 : Nat) = 0))]
  rw [if_pos (List.length_pos.mpr hne)]
  rw [hlastr, List.dropLast_concat_getLast hchne]


/-- Fewer than `12 × n` bytes cannot hold `n` key/child pairs: the loop
slices out of range (`none`). -/
theorem readKeyChildPairs_short (n : Nat) (buf : List Nat)
    (h : buf.length < 12 * n) : readKeyChildPairs n buf = none := by
  induction n generalizing buf with
  | zero => omega
  | succ n ih =>
      rw [readKeyChildPairs]
      by_cases h8 : 8 ≤ buf.length
      · have hr8 : readN 8 buf = some (buf.take 8, buf.drop 8) := by
          rw [readN, if_pos h8]
        rw [hr8]
        dsimp only
        by_cases h4 : 4 ≤ (buf.drop 8).length
        · have hr4 : readN 4 (buf.drop 8) =
              some ((buf.drop 8).take 4, (buf.drop 8).drop 4) := by
            rw [readN, if_pos h4]
          rw [hr4]
          dsimp only
          rw [ih ((buf.drop 8).drop 4)
            (by rw [List.length_drop] at h4
                simp only [List.length_drop]
                omega)]
        · have hr4 : readN 4 (buf.drop 8) = none := by rw [readN, if_neg h4]
          rw [hr4]
      · have hr8 : readN 8 buf = none := by rw [readN, if_neg h8]
        rw [hr8]

/-- C7: the deserializers perform no capacity validation.
`DataPage::deserialize` and `HeaderPage::deserialize` return `Some` on
every input, so a data-page image whose slot 0 declares the byte range
`[3000, 3200)` — 167 bytes past the 3033-byte payload — is accepted
verbatim; and `IndexPage::deserialize` reacts to a `keys_len` of 341
(capacity is 340) not with `None` but with an out-of-range slice, a
panic.  The spec demands an absent value in all these cases. -/
theorem c7_deserialize_skips_validation :
    (∀ buf : List Nat, (DataPage.deserialize buf).isSome = true) ∧
    (∀ buf : List Nat, (HeaderPage.deserialize buf).isSome = true) ∧
    (DataPage.deserialize (DataPage.serialize c7badPage) = some c7badPage ∧
     (∃ t : Slot, some t ∈ c7badPage.slots ∧
        PAYLOAD_SIZE < t.offset + t.length)) ∧
    (c7badIndexBuf.length = PAGE_SIZE ∧
     IndexPage.deserialize c7badIndexBuf = DeserResult.panik) := by
  refine ⟨fun buf => rfl, fun buf => rfl, ⟨?_, ?_⟩, ?_, ?_⟩
  · have hwf : c7badPage.wf := by
      refine ⟨(by norm_num : (5 : Nat) < 2 ^ 32),
        (by norm_num : (0 : Nat) < 2 ^ 32),
        (by norm_num : (0 : Nat) < 2 ^ 8),
        (by norm_num [PAYLOAD_SIZE, data_page_header_size, PAGE_SIZE, MAX_SLOTS] :
          PAYLOAD_SIZE < 2 ^ 16),
        List.length_replicate ..,
        (by rw [List.length_set, List.length_replicate] :
          ((List.replicate MAX_SLOTS (none : Option Slot)).set 0
            (some ⟨3000, 200⟩)).length = MAX_SLOTS),
        ?_⟩
      intro t ht
      have ht2 : some t ∈ (List.replicate MAX_SLOTS (none : Option Slot)).set 0
          (some ⟨3000, 200⟩) := ht
      rcases List.mem_or_eq_of_mem_set ht2 with hm | he
      · exact absurd (List.eq_of_mem_replicate hm) (by simp)
      · obtain rfl : t = ⟨3000, 200⟩ := by injection he
        refine ⟨by norm_num, by norm_num, by norm_num⟩
    exact dataPage_round_trip c7badPage hwf
  · refine ⟨⟨3000, 200⟩, by decide,
      by norm_num [PAYLOAD_SIZE, data_page_header_size, PAGE_SIZE, MAX_SLOTS]⟩
  · rw [show c7badIndexBuf = toLeBytes 4 9 ++ [1] ++ toLeBytes 2 341 ++
        List.replicate 4089 0 from rfl]
    simp only [List.length_append, toLeBytes_length, List.length_replicate,
      List.length_cons, List.length_nil]
    norm_num [PAGE_SIZE]
  · have e0 : c7badIndexBuf =
        toLeBytes 4 9 ++ ((1 : Nat) :: (toLeBytes 2 341 ++
          List.replicate 4089 0)) := rfl
    rw [e0, IndexPage.deserialize]
    rw [readN_append (toLeBytes 4 9) _ 4 (toLeBytes_length ..)]
    dsimp only [List.head?_cons, List.tail_cons]
    rw [if_neg (by norm_num : ¬ ((1 : Nat) = 0))]
    rw [if_pos (rfl : (1 : Nat) = 1)]
    rw [readN_append (toLeBytes 2 341) _ 2 (toLeBytes_length ..)]
    dsimp only
    rw [fromLeBytes_toLeBytes_eq 2 341 (by norm_num)]
    rw [readKeyChildPairs_short 341 _ (by rw [List.length_replicate]; norm_num)]

/-! ## C8: page round trips -/

/-- An internal index page holding zero keys and one child — the shape the
root takes in a B+ tree whose height just shrank, and which C8 names
explicitly. -/
def c8phantomInternal : IndexPage :=
  { id := 9, page_type := IndexType.Internal, keys := [], rids := [],
    children := [7], next := none }

/-- Counterexample to C8 as stated: serializing the zero-key one-child
internal page and deserializing the image yields a page whose `children`
list is empty — the only child, page 7, is gone.  (`serialize` writes the
trailing child unconditionally, but `deserialize` reads it only when
`keys_len > 0`.) -/
theorem c8_zero_key_internal_loses_child :
    c8phantomInternal.id > 0 ∧ c8phantomInternal.children = [7] ∧
    IndexPage.deserialize (IndexPage.serialize c8phantomInternal) =
      DeserResult.ok { c8phantomInternal with children := [] } := by
  refine ⟨by norm_num [c8phantomInternal], rfl, ?_⟩
  have e1 : IndexPage.serialize c8phantomInternal =
      [9, 0, 0, 0] ++ ((1 : Nat) :: ([0, 0] ++
        ([7, 0, 0, 0] ++ List.replicate 4085 0))) := rfl
  have r1 : ∀ rest : List Nat,
      readN 4 (([9, 0, 0, 0] : List Nat) ++ rest) = some ([9, 0, 0, 0], rest) :=
    fun rest => readN_append _ _ _ rfl
  have r2 : ∀ rest : List Nat,
      readN 2 (([0, 0] : List Nat) ++ rest) = some ([0, 0], rest) :=
    fun rest => readN_append _ _ _ rfl
  rw [e1, IndexPage.deserialize]
  rw [r1]
  dsimp only [List.head?_cons, List.tail_cons]
  rw [if_neg (by norm_num : ¬ ((1 : Nat) = 0))]
  rw [if_pos (rfl : (1 : Nat) = 1)]
  rw [r2]
  dsimp only
  rw [show fromLeBytes [0, 0] = 0 from rfl,
    show fromLeBytes [9, 0, 0, 0] = 9 from rfl]
  rw [show readKeyChildPairs 0 ([7, 0, 0, 0] ++ List.replicate 4085 0) =
    some ([], [], [7, 0, 0, 0] ++ List.replicate 4085 0) from rfl]
  dsimp only
  rw [if_neg (by norm_num : ¬ ((0 : Nat) > 0))]
  rfl

/-- C8 (amended): the round trip `deserialize ∘ serialize = id` holds for
every structurally well-formed page — data pages, header pages, leaf index
pages, and internal index pages with at least one key — but NOT for the
zero-key internal page of the original claim, whose counterexample is
proved separately. -/
theorem c8_page_round_trip :
    (∀ p : DataPage, p.wf → DataPage.deserialize (DataPage.serialize p) = some p) ∧
    (∀ p : HeaderPage, p.wf → HeaderPage.deserialize (HeaderPage.serialize p) = some p) ∧
    (∀ p : IndexPage, p.wfLeaf ∨ p.wfInternal →
      IndexPage.deserialize (IndexPage.serialize p) = DeserResult.ok p) :=
  ⟨dataPage_round_trip, headerPage_round_trip,
   fun p h => h.elim (leafPage_round_trip p) (internalPage_round_trip p)⟩

/-- A data page holding one zero-length record at slot 0 (its bytes sit at
`free_start = 3033`, occupying no space). -/
def c8data : DataPage :=
  { DataPage.new 3 with
      next_slot := 1,
      slots := (List.replicate MAX_SLOTS (none : Option Slot)).set 0
        (some ⟨3033, 0⟩) }

/-- A header page. -/
def c8hdr : HeaderPage := HeaderPage.new 2

/-- A leaf index page with one key and a next pointer. -/
def c8leaf : IndexPage :=
  { id := 6, page_type := IndexType.Leaf, keys := [42], rids := [⟨9, 0⟩],
    children := [], next := some 7 }

/-- An internal index page with one key and two children. -/
def c8int : IndexPage :=
  { id := 8, page_type := IndexType.Internal, keys := [50], rids := [],
    children := [4, 5], next := none }

/-- Witness for C8: the amended round trip applied to a data page holding
a zero-length record, a fresh header page, a one-key leaf, and a one-key
internal node. -/
theorem c8_page_round_trip_witness :
    DataPage.deserialize (DataPage.serialize c8data) = some c8data ∧
    HeaderPage.deserialize (HeaderPage.serialize c8hdr) = some c8hdr ∧
    IndexPage.deserialize (IndexPage.serialize c8leaf) = DeserResult.ok c8leaf ∧
    IndexPage.deserialize (IndexPage.serialize c8int) = DeserResult.ok c8int :=
  ⟨c8_page_round_trip.1 c8data
    (by
      refine ⟨(by norm_num : (3 : Nat) < 2 ^ 32),
        (by norm_num : (0 : Nat) < 2 ^ 32),
        (by norm_num : (1 : Nat) < 2 ^ 8),
        (by norm_num [PAYLOAD_SIZE, data_page_header_size, PAGE_SIZE, MAX_SLOTS] :
          PAYLOAD_SIZE < 2 ^ 16),
        List.length_replicate ..,
        (by rw [List.length_set, List.length_replicate] :
          ((List.replicate MAX_SLOTS (none : Option Slot)).set 0
            (some ⟨3033, 0⟩)).length = MAX_SLOTS),
        ?_⟩
      intro t ht
      have ht2 : some t ∈ (List.replicate MAX_SLOTS (none : Option Slot)).set 0
          (some ⟨3033, 0⟩) := ht
      rcases List.mem_or_eq_of_mem_set ht2 with hm | he
      · exact absurd (List.eq_of_mem_replicate hm) (by simp)
      · obtain rfl : t = ⟨3033, 0⟩ := by injection he
        refine ⟨by norm_num, by norm_num, by norm_num⟩),
   c8_page_round_trip.2.1 c8hdr
    (⟨(by norm_num : (2 : Nat) < 2 ^ 32), (by norm_num : (0 : Nat) < 2 ^ 32),
      (by norm_num : (0 : Nat) < 2 ^ 32), List.length_replicate ..⟩),
   c8_page_round_trip.2.2 c8leaf (Or.inl (by
      refine ⟨rfl, rfl, by norm_num [c8leaf], rfl, by norm_num [c8leaf], ?_, ?_, ?_⟩
      · intro k hk; simp [c8leaf] at hk; subst hk; constructor <;> decide
      · intro r hr; simp [c8leaf] at hr; subst hr; constructor <;> decide
      · intro nx hnx; simp [c8leaf] at hnx; omega)),
   c8_page_round_trip.2.2 c8int (Or.inr (by
      refine ⟨rfl, rfl, rfl, by simp [c8int], by norm_num [c8int], rfl,
        by norm_num [c8int], ?_, ?_⟩
      · intro k hk; simp [c8int] at hk; subst hk; constructor <;> decide
      · intro c hc; simp [c8int] at hc; rcases hc with h | h <;> omega))⟩


/-! ## C5: the free list (`free_list.rs`) -/

/-- `free_list.rs`: the `FreeList` struct.  The disk and the header cache
are merged into one keyed store (`load_header` reads through the cache to
disk; only functional behaviour is modelled, `flush` has no observable
effect on it). -/
structure FreeList where
  head : Nat
  store : Nat → HeaderPage

/-- Write-back of a mutated header into the cache/disk store. -/
def FreeList.setPage (fl : FreeList) (pid : Nat) (p : HeaderPage) : FreeList :=
  { fl with store := fun i => if i = pid then p else fl.store i }

/-- `FreeList::create_and_allocate`.  The first branch creates header page
1; the second appends a page with id `start + 1`, `next = start` and
`set_offset(prev.offset + FREE_HEADER_SIZE)` (the source passes a byte
count where `set_offset` expects an index, and `set_offset` additionally
multiplies by `FREE_HEADER_SIZE * 8`).  `none` models the `.expect`
panic. -/
def FreeList.create_and_allocate (fl : FreeList) : Option (Nat × FreeList) :=
  if fl.head = 0 then
    match (HeaderPage.new 1).allocate_header with
    | some (allocated, page) =>
        some (allocated,
          { head := 1,
            store := fun i => if i = 1 then page else fl.store i })
    | none => none
  else
    let start := fl.head
    let prev := fl.store start
    let page := ((HeaderPage.new (start + 1)).set_next prev.id).set_offset
      (prev.get_offset + FREE_HEADER_SIZE)
    match page.allocate_header with
    | some (allocated, page') =>
        some (allocated,
          { head := start + 1,
            store := fun i => if i = start + 1 then page' else fl.store i })
    | none => none

/-- The chain walk of `FreeList::allocate`; `none` on fuel exhaustion
(a cyclic chain, where the source loops forever). -/
def FreeList.allocateLoop : Nat → FreeList → Nat → Option (Nat × FreeList)
  | 0, _, _ => none
  | fuel + 1, fl, curr =>
      let entry := fl.store curr
      match entry.allocate_header with
      | some (pid, page') => some (pid, fl.setPage curr page')
      | none =>
          match entry.get_next with
          | some next => FreeList.allocateLoop fuel fl next
          | none => fl.create_and_allocate

/-- `FreeList::allocate`. -/
def FreeList.allocate (fl : FreeList) (fuel : Nat) : Option (Nat × FreeList) :=
  if fl.head = 0 then fl.create_and_allocate
  else FreeList.allocateLoop fuel fl fl.head

/-- Result of `FreeList::deallocate`: `ok` is `Ok(())` with the mutated
list, `err` is the `Err(..)` return, `panik` is the double-free/underflow
panic inside `deallocate_header`, and `fuelout` marks fuel exhaustion
(never reached in the theorems below). -/
inductive DeallocResult where
  | ok (fl : FreeList)
  | err
  | panik
  | fuelout

/-- The chain walk of `FreeList::deallocate`.  The range check is the
source's: `page_id >= offset && page_id < offset + FREE_HEADER_SIZE` —
`FREE_HEADER_SIZE` bytes, not the `FREE_HEADER_SIZE * 8` ids the header's
bitmap actually covers. -/
def FreeList.deallocateLoop : Nat → FreeList → Nat → Nat → DeallocResult
  | 0, _, _, _ => .fuelout
  | fuel + 1, fl, curr, page_id =>
      let entry := fl.store curr
      let offset := entry.get_offset
      if page_id ≥ offset ∧ page_id < offset + FREE_HEADER_SIZE then
        match entry.deallocate_header page_id with
        | some page' => .ok (fl.setPage curr page')
        | none => .panik
      else
        match entry.get_next with
        | some next => FreeList.deallocateLoop fuel fl next page_id
        | none => .err

/-- `FreeList::deallocate`. -/
def FreeList.deallocate (fl : FreeList) (page_id : Nat) (fuel : Nat) :
    DeallocResult :=
  if fl.head = 0 then .err
  else FreeList.deallocateLoop fuel fl fl.head page_id

/-- A `FreeList` over a fresh database: no header chain yet. -/
def freshFreeList : FreeList :=
  { head := 0, store := fun i => HeaderPage.new i }

/-- `k` successive `allocate` calls; returns the id handed out by the
last one. -/
def FreeList.allocIter : Nat → FreeList → Option (Nat × FreeList)
  | 0, fl => some (0, fl)
  | k + 1, fl =>
      match FreeList.allocIter k fl with
      | some (_, fl') => fl'.allocate 1
      | none => none

/-- The first `k` bits of the header's bitmap are set, the rest clear. -/
def headerBits (p : HeaderPage) (k : Nat) : Prop :=
  ∀ i, i < FREE_HEADER_SIZE * 8 → bitmap_get p.free_slot i = decide (i < k)

/-- State of the free list after `k` allocations from empty: one header
page, id 1, offset 0, first `k` bits used. -/
def FreeList.inv (fl : FreeList) (k : Nat) : Prop :=
  fl.head = 1 ∧ (fl.store 1).id = 1 ∧ (fl.store 1).next = 0 ∧
  (fl.store 1).offset = 0 ∧
  (fl.store 1).free_slot.length = FREE_HEADER_SIZE ∧
  headerBits (fl.store 1) k

theorem bitmap_get_replicate_zero (n i : Nat) :
    bitmap_get (List.replicate n 0) i = false := by
  rw [bitmap_get]
  by_cases h : i / 8 < n
  · rw [List.getD_eq_getElem _ _ (by simpa using h), List.getElem_replicate]
    exact Nat.zero_testBit _
  · rw [List.getD_eq_default _ _ (by simpa using h)]
    exact Nat.zero_testBit _

theorem find?_range'_first (p : Nat → Bool) (k : Nat) :
    ∀ (s n : Nat), s ≤ k → k < s + n →
    (∀ i, s ≤ i → i < k → p i = false) → p k = true →
    (List.range' s n).find? p = some k := by
  intro s n
  induction n generalizing s with
  | zero => omega
  | succ n ih =>
      intro hsk hkn hlt hk
      rw [List.range'_succ]
      by_cases hs : s = k
      · subst hs
        exact List.find?_cons_of_pos _ hk
      · rw [List.find?_cons_of_neg _ (by rw [hlt s le_rfl (by omega)]; simp)]
        exact ih (s + 1) (by omega) (by omega)
          (fun i h1 h2 => hlt i (by omega) h2) hk

/-- `get_slot` returns the first clear bit. -/
theorem get_slot_of_headerBits (p : HeaderPage) (k : Nat)
    (hb : headerBits p k) (hk : k < FREE_HEADER_SIZE * 8) :
    p.get_slot = some k := by
  rw [HeaderPage.get_slot]
  refine find?_range'_first _ k 0 (FREE_HEADER_SIZE * 8) (by omega) (by omega)
    (fun i h1 h2 => ?_) ?_
  · have := hb i (by omega)
    simp [this, h2]
  · have := hb k hk
    simp [this]

theorem allocate_step (fl : FreeList) (k : Nat) (h : fl.inv k)
    (hk : k < FREE_HEADER_SIZE * 8) (fuel : Nat) :
    ∃ fl', fl.allocate (fuel + 1) = some (k + 1, fl') ∧ fl'.inv (k + 1) := by
  obtain ⟨h1, h2, h3, h4, h5, h6⟩ := h
  have hgs : (fl.store 1).get_slot = some k := get_slot_of_headerBits _ k h6 hk
  have hdiv : k / 8 < FREE_HEADER_SIZE := by omega
  have hah : (fl.store 1).allocate_header =
      some ((fl.store 1).offset + k + 1,
        { fl.store 1 with
            free_slot := bitmap_set (fl.store 1).free_slot k true }) := by
    rw [HeaderPage.allocate_header, hgs]
  refine ⟨fl.setPage 1 { fl.store 1 with
      free_slot := bitmap_set (fl.store 1).free_slot k true }, ?_, ?_⟩
  · rw [FreeList.allocate, h1, if_neg (by norm_num), FreeList.allocateLoop]
    rw [hah, h4, Nat.zero_add]
  · refine ⟨h1, h2, h3, h4, ?_, ?_⟩
    · show (bitmap_set (fl.store 1).free_slot k true).length = FREE_HEADER_SIZE
      rw [bitmap_set_length]; exact h5
    · intro i hi
      show bitmap_get (bitmap_set (fl.store 1).free_slot k true) i =
        decide (i < k + 1)
      by_cases hik : i = k
      · subst hik
        rw [bitmap_get_bitmap_set_self _ _ _ (by rw [h5]; exact hdiv)]
        simp
      · rw [bitmap_get_bitmap_set_ne _ _ _ _ (Ne.symm hik), h6 i hi]
        simp only [decide_eq_decide]
        omega

theorem allocate_first :
    ∃ fl, freshFreeList.allocate 1 = some (1, fl) ∧ fl.inv 1 := by
  have hb0 : headerBits (HeaderPage.new 1) 0 := by
    intro i hi
    show bitmap_get (List.replicate FREE_HEADER_SIZE 0) i = decide (i < 0)
    rw [bitmap_get_replicate_zero]
    simp
  have hfhs : 0 < FREE_HEADER_SIZE := by
    norm_num [FREE_HEADER_SIZE, MAX_HEADERS, PAGE_SIZE]
  have hgs : (HeaderPage.new 1).get_slot = some 0 :=
    get_slot_of_headerBits _ 0 hb0 (by omega)
  have hah : (HeaderPage.new 1).allocate_header =
      some (1, { HeaderPage.new 1 with
        free_slot := bitmap_set (HeaderPage.new 1).free_slot 0 true }) := by
    rw [HeaderPage.allocate_header, hgs]
    rfl
  refine ⟨{ head := 1,
            store := fun i => if i = 1 then
              { HeaderPage.new 1 with
                  free_slot := bitmap_set (HeaderPage.new 1).free_slot 0 true }
              else freshFreeList.store i }, ?_, ?_⟩
  · rw [FreeList.allocate, if_pos (show freshFreeList.head = 0 from rfl),
      FreeList.create_and_allocate,
      if_pos (show freshFreeList.head = 0 from rfl), hah]
  · refine ⟨rfl, rfl, rfl, rfl, ?_, ?_⟩
    · show (bitmap_set (HeaderPage.new 1).free_slot 0 true).length =
        FREE_HEADER_SIZE
      rw [bitmap_set_length]
      exact List.length_replicate ..
    · intro i hi
      show bitmap_get (bitmap_set (HeaderPage.new 1).free_slot 0 true) i =
        decide (i < 1)
      by_cases hik : i = 0
      · subst hik
        rw [bitmap_get_bitmap_set_self _ _ _ (by
          show (0 : Nat) / 8 < (List.replicate FREE_HEADER_SIZE (0 : Nat)).length
          rw [List.length_replicate]
          omega)]
        simp
      · rw [bitmap_get_bitmap_set_ne _ _ _ _ (Ne.symm hik), hb0 i hi]
        simp only [decide_eq_decide]
        omega

theorem allocIter_spec : ∀ k, 1 ≤ k → k ≤ FREE_HEADER_SIZE * 8 →
    ∃ fl, FreeList.allocIter k freshFreeList = some (k, fl) ∧ fl.inv k := by
  intro k
  induction k with
  | zero => omega
  | succ k ih =>
      intro _ hle
      by_cases hk0 : k = 0
      · subst hk0
        obtain ⟨fl, hstep, hinv⟩ := allocate_first
        exact ⟨fl, by rw [FreeList.allocIter, FreeList.allocIter]; exact hstep,
          hinv⟩
      · obtain ⟨fl, hiter, hinv⟩ := ih (by omega) (by omega)
        obtain ⟨fl', hstep, hinv'⟩ := allocate_step fl k hinv (by omega) 0
        refine ⟨fl', ?_, hinv'⟩
        rw [FreeList.allocIter, hiter]
        exact hstep

/-- C5: after 4084 allocations from an empty free list the last id handed
out is 4084 — an id the single header (offset 0) covers, since a header
covers `FREE_HEADER_SIZE × 8 = 32672` ids.  `deallocate(4083)` succeeds,
but `deallocate(4084)` returns an error: the range check in
`FreeList::deallocate` uses a width of `FREE_HEADER_SIZE` (4084 bytes)
instead of `FREE_HEADER_SIZE × 8` bits, so every id in
`[offset + FREE_HEADER_SIZE, offset + FREE_HEADER_SIZE × 8]` handed out
by `allocate` can never be freed. -/
theorem c5_deallocate_range_too_narrow :
    ∃ fl : FreeList,
      FreeList.allocIter 4084 freshFreeList = some (4084, fl) ∧
      (fl.store fl.head).get_offset = 0 ∧
      4084 ≤ (fl.store fl.head).get_offset + FREE_HEADER_SIZE * 8 ∧
      (∃ fl', fl.deallocate 4083 1 = DeallocResult.ok fl') ∧
      fl.deallocate 4084 1 = DeallocResult.err := by
  have hfhs : FREE_HEADER_SIZE = 4084 := by
    norm_num [FREE_HEADER_SIZE, MAX_HEADERS, PAGE_SIZE]
  obtain ⟨fl, hiter, h1, h2, h3, h4, h5, h6⟩ :=
    allocIter_spec 4084 (by norm_num) (by rw [hfhs]; norm_num)
  have hoff : (fl.store 1).get_offset = 0 := by
    rw [HeaderPage.get_offset, h4]
  refine ⟨fl, hiter, ?_, ?_, ?_, ?_⟩
  · rw [h1, hoff]
  · rw [h1, hoff, hfhs]; norm_num
  · have hbit : bitmap_get (fl.store 1).free_slot 4082 = true := by
      rw [h6 4082 (by rw [hfhs]; norm_num)]
      simp
    have hdh : (fl.store 1).deallocate_header 4083 =
        some { fl.store 1 with
          free_slot := bitmap_set (fl.store 1).free_slot
            (4083 - (fl.store 1).offset - 1) false } := by
      rw [HeaderPage.deallocate_header, if_neg (by rw [h4]; omega)]
      rw [show bitmap_get (fl.store 1).free_slot
          (4083 - (fl.store 1).offset - 1) = true from by rw [h4]; exact hbit]
      rw [if_pos rfl]
    refine ⟨fl.setPage 1 { fl.store 1 with
        free_slot := bitmap_set (fl.store 1).free_slot
          (4083 - (fl.store 1).offset - 1) false }, ?_⟩
    rw [FreeList.deallocate, h1, if_neg (by norm_num), FreeList.deallocateLoop]
    rw [if_pos (by rw [hoff, hfhs]; omega :
      4083 ≥ (fl.store 1).get_offset ∧
        4083 < (fl.store 1).get_offset + FREE_HEADER_SIZE)]
    rw [hdh]
  · have hgn : (fl.store 1).get_next = none := by
      rw [HeaderPage.get_next, if_neg (by rw [h3]; norm_num)]
    rw [FreeList.deallocate, h1, if_neg (by norm_num), FreeList.deallocateLoop]
    rw [if_neg (by rw [hoff, hfhs]; omega :
      ¬ (4084 ≥ (fl.store 1).get_offset ∧
        4084 < (fl.store 1).get_offset + FREE_HEADER_SIZE))]
    rw [hgn]


/-! ## C1: insert-then-search -/

/-- A well-formed B+ tree (`internal_max_keys = 2`, `leaf_max_keys = 2`,
height 3, every node within `[min, max]` keys, keys sorted, left keys <
separator ≤ right keys, leaves chained left to right): root `1 = [20]`
over internals `2 = [10]`, `3 = [30]` over leaves `4 = [5]`, `5 = [10]`,
`6 = [20]`, `7 = [30]`. -/
def c1tree : BTState :=
  { root := 1,
    store := fun j =>
      if j = 1 then internalPage 1 [20] [2, 3]
      else if j = 2 then internalPage 2 [10] [4, 5]
      else if j = 3 then internalPage 3 [30] [6, 7]
      else if j = 4 then leafPage 4 [5] (some 5)
      else if j = 5 then leafPage 5 [10] (some 6)
      else if j = 6 then leafPage 6 [20] (some 7)
      else if j = 7 then leafPage 7 [30] none
      else IndexPage.new 0 IndexType.Leaf,
    nextId := 8, internal_max_keys := 2, leaf_max_keys := 2 }

/-- One `BPlusTree` operation of the repository's test driver. -/
inductive Op where
  | ins (k : Int)
  | del (k : Int)

/-- Does the operation insert or delete the key `k`? -/
def Op.touches (op : Op) (k : Int) : Bool :=
  match op with
  | .ins j => j == k
  | .del j => j == k

/-- Run a sequence of operations from a state; an insert of `k` stores the
record `(k + 1, 0)`.  `none` when any operation panics. -/
def runOps : List Op → BTState → Option BTState
  | [], t => some t
  | Op.ins k :: rest, t =>
      match t.insert k ⟨k.toNat + 1, 0⟩ with
      | some t2 => runOps rest t2
      | none => none
  | Op.del k :: rest, t =>
      match t.delete k with
      | some (_, t2) => runOps rest t2
      | none => none

/-- A 25-operation sequence on an initially empty tree with
`internal_max_keys = 4`, `leaf_max_keys = 2`. -/
def ops25 : List Op :=
  [.ins 21, .ins 19, .ins 6, .ins 9, .ins 22, .ins 14, .ins 7, .ins 13,
   .ins 4, .ins 8, .ins 3, .del 9, .ins 1, .del 8, .del 13, .ins 0,
   .del 19, .ins 2, .ins 11, .ins 8, .del 1, .ins 12, .del 8, .del 6, .del 2]

/-- C1: the claim fails.  (i) On the well-formed tree `c1tree`,
`insert(15, (15,0))` succeeds and `search(15)` immediately after returns
the record — but after a `delete(20)`, an operation that never touches
key 15, `search(15)` returns nothing: the delete merges an underflowed
internal node into its left sibling and drops the parent separator
(`bplus_tree.rs:208`), cutting the leaf holding 15 out of the search
path.  (ii) The same happens on a tree grown from empty by plain
operations: running `ops25` panics nowhere, its only operation on key 4
is the insert storing `(5,0)` (and likewise `[.ins 7]`, `[.ins 3]` for
keys 7 and 3), yet at the end `search` finds none of 4, 7, 3. -/
theorem c1_inserted_key_lost :
    ((c1tree.insert 15 ⟨15, 0⟩).map (fun t => t.search 15) =
      some (some ⟨15, 0⟩)) ∧
    ((c1tree.insert 15 ⟨15, 0⟩).bind (fun t => (t.delete 20).map
      (fun r => (r.1, r.2.search 15))) = some (true, none)) ∧
    (ops25.filter (fun op => op.touches 4) = [Op.ins 4]) ∧
    (ops25.filter (fun op => op.touches 7) = [Op.ins 7]) ∧
    (ops25.filter (fun op => op.touches 3) = [Op.ins 3]) ∧
    ((runOps ops25 (BTState.newTree 4 2)).map
      (fun t => (t.search 4, t.search 7, t.search 3)) =
      some (none, none, none)) :=
  ⟨rfl, rfl, rfl, rfl, rfl, rfl⟩

end Raincloud
